import Mathlib

/-!
# nswatch: the proc-connector subscription encoder, frame reader and event decoder

A shallow embedding of `nswatch.go` and of the decoder of the legacy variant
`nmwatch.go`.

* A byte is a `Fin 256`; a Go `[]byte` is a `List Byte`.
* The fixed-width unsigned fields of the wire structs are natural numbers; every
  decoder produces values below the width of the field, every encoder reduces
  its argument modulo the width of the field.
* `bytes.Buffer` is the list of the bytes that are still unread; `binary.Read`
  is explicit state passing on it.
* `fmt.Printf(format, args...)` is recorded as the pair of the format string and
  the argument list; `Printf.render` gives the text that is written.
* A run-time panic (index out of range) is the flag `panicked` of the result;
  what was printed before the panic is kept.
* `int` is 64 bits wide (linux/amd64), so `int(x)` of a `uint32` is `x`.
-/

namespace Nswatch

/-- One octet. -/
abbrev Byte := Fin 256

/-! ## Constants -/

-- <linux/connector.h>
def CN_IDX_PROC : Nat := 0x1
def CN_VAL_PROC : Nat := 0x1

-- <linux/cn_proc.h>
def PROC_CN_GET_FEATURES : Nat := 0
def PROC_CN_MCAST_LISTEN : Nat := 1
def PROC_CN_MCAST_IGNORE : Nat := 2

def PROC_EVENT_NONE : Nat := 0x00000000
def PROC_EVENT_FORK : Nat := 0x00000001
def PROC_EVENT_EXEC : Nat := 0x00000002
def PROC_EVENT_UID : Nat := 0x00000004
def PROC_EVENT_GID : Nat := 0x00000040
def PROC_EVENT_SID : Nat := 0x00000080
def PROC_EVENT_PTRACE : Nat := 0x00000100
def PROC_EVENT_COMM : Nat := 0x00000200
def PROC_EVENT_NS : Nat := 0x00000400
def PROC_EVENT_COREDUMP : Nat := 0x40000000
def PROC_EVENT_EXIT : Nat := 0x80000000

-- package syscall (linux)
def NLMSG_HDRLEN : Nat := 16
def NLMSG_ALIGNTO : Nat := 4
def NLMSG_DONE : Nat := 0x3
def CLONE_NEWNS : Nat := 0x20000
def CLONE_NEWUTS : Nat := 0x4000000
def CLONE_NEWIPC : Nat := 0x8000000
def CLONE_NEWUSER : Nat := 0x10000000
def CLONE_NEWPID : Nat := 0x20000000
def CLONE_NEWNET : Nat := 0x40000000

/-! ## Wire structs -/

/-- The struct `cb_id` of linux/connector.h. -/
structure cbId where
  Idx : Nat
  Val : Nat
deriving DecidableEq, Repr

/-- The struct `cb_msg` of linux/connector.h. -/
structure cnMsg where
  Id : cbId
  Seq : Nat
  Ack : Nat
  Len : Nat
  Flags : Nat
deriving DecidableEq, Repr

/-- The fields `what`, `cpu`, `timestamp_ns` of `struct proc_event`. -/
structure procEventHeader where
  What : Nat
  Cpu : Nat
  Timestamp : Nat
deriving DecidableEq, Repr

/-- The member `fork` of `struct proc_event`. -/
structure forkProcEvent where
  ParentPid : Nat
  ParentTgid : Nat
  ChildPid : Nat
  ChildTgid : Nat
deriving DecidableEq, Repr

/-- The member `exec` of `struct proc_event`. -/
structure execProcEvent where
  ProcessPid : Nat
  ProcessTgid : Nat
deriving DecidableEq, Repr

/-- One slot of the namespace event. -/
structure nsProcItem where
  ItemType : Nat
  Flag : Nat
  OldInum : Nat
  Inum : Nat
deriving DecidableEq, Repr

/-- The namespace event; `Items` is the Go array `[7]nsProcItem`, a list that
every constructor below builds with exactly seven entries. -/
structure nsProcEvent where
  ProcessPid : Nat
  ProcessTgid : Nat
  Reason : Nat
  Count : Nat
  Items : List nsProcItem
deriving DecidableEq, Repr

/-- The member `exit` of `struct proc_event`. -/
structure exitProcEvent where
  ProcessPid : Nat
  ProcessTgid : Nat
  ExitCode : Nat
  ExitSignal : Nat
deriving DecidableEq, Repr

/-- The struct `syscall.NlMsghdr`; `Type_` is its field `Type`. -/
structure NlMsghdr where
  Len : Nat
  Type_ : Nat
  Flags : Nat
  Seq : Nat
  Pid : Nat
deriving DecidableEq, Repr

/-- Standard netlink header + connector header. -/
structure netlinkProcMessage where
  Header : NlMsghdr
  Data : cnMsg
deriving DecidableEq, Repr

/-- The struct `syscall.NetlinkMessage`. -/
structure NetlinkMessage where
  Header : NlMsghdr
  Data : List Byte
deriving DecidableEq, Repr

/-! ## Zero values (what `&T{}` allocates) -/

def cnMsg.zero : cnMsg := ⟨⟨0, 0⟩, 0, 0, 0, 0⟩
def procEventHeader.zero : procEventHeader := ⟨0, 0, 0⟩
def forkProcEvent.zero : forkProcEvent := ⟨0, 0, 0, 0⟩
def execProcEvent.zero : execProcEvent := ⟨0, 0⟩
def nsProcItem.zero : nsProcItem := ⟨0, 0, 0, 0⟩
def nsProcEvent.zero : nsProcEvent := ⟨0, 0, 0, 0, List.replicate 7 nsProcItem.zero⟩
def exitProcEvent.zero : exitProcEvent := ⟨0, 0, 0, 0⟩
def NlMsghdr.zero : NlMsghdr := ⟨0, 0, 0, 0, 0⟩

/-! ## `byteOrder = binary.LittleEndian` -/

/-- The byte of `b` at index `i` as a number (0 when there is none; the callers
below only index inside the slice). -/
def at8 (b : List Byte) (i : Nat) : Nat := (b.getD i 0).val

/-- The low octet of `v`, the Go conversion `byte(v)`. -/
def toByte (v : Nat) : Byte := ⟨v % 256, Nat.mod_lt v (by decide)⟩

namespace byteOrder

/-- Little-endian `Uint16`: `uint16(b[0]) | uint16(b[1])<<8`. -/
def Uint16 (b : List Byte) : Nat := at8 b 0 + 256 * at8 b 1

/-- Little-endian `Uint32`. -/
def Uint32 (b : List Byte) : Nat :=
  at8 b 0 + 256 * at8 b 1 + 65536 * at8 b 2 + 16777216 * at8 b 3

/-- Little-endian `Uint64`. -/
def Uint64 (b : List Byte) : Nat :=
  at8 b 0 + 256 * at8 b 1 + 65536 * at8 b 2 + 16777216 * at8 b 3
    + 4294967296 * at8 b 4 + 1099511627776 * at8 b 5
    + 281474976710656 * at8 b 6 + 72057594037927936 * at8 b 7

/-- Little-endian `PutUint16`: `byte(v)`, `byte(v >> 8)`. -/
def PutUint16 (v : Nat) : List Byte := [toByte v, toByte (v / 256)]

/-- Little-endian `PutUint32`. -/
def PutUint32 (v : Nat) : List Byte :=
  [toByte v, toByte (v / 256), toByte (v / 65536), toByte (v / 16777216)]

/-- Little-endian `PutUint64`. -/
def PutUint64 (v : Nat) : List Byte :=
  [toByte v, toByte (v / 256), toByte (v / 65536), toByte (v / 16777216),
   toByte (v / 4294967296), toByte (v / 1099511627776),
   toByte (v / 281474976710656), toByte (v / 72057594037927936)]

end byteOrder

/-! ## `binary.Size` of the structs (the sum of the field widths) -/

def cnMsg.size : Nat := 4 + 4 + 4 + 4 + 2 + 2
def procEventHeader.size : Nat := 4 + 4 + 8
def forkProcEvent.size : Nat := 4 + 4 + 4 + 4
def execProcEvent.size : Nat := 4 + 4
def nsProcItem.size : Nat := 4 + 4 + 8 + 8
def nsProcEvent.size : Nat := 4 + 4 + 4 + 4 + 7 * nsProcItem.size
def exitProcEvent.size : Nat := 4 + 4 + 4 + 4
def NlMsghdr.size : Nat := 4 + 2 + 2 + 4 + 4

/-! ## `binary.Read` on a `bytes.Buffer`

`binary.Read(buf, order, &v)` calls `io.ReadFull(buf, bs)` with `len(bs)` the
size of `v`.  With enough unread bytes it consumes exactly that many and fills
`v` field by field; otherwise it consumes every unread byte, returns an error
and leaves `v` as it was.  The callers drop the error. -/

/-- The function `io.ReadFull` on a buffer whose unread bytes are `buf`:
the bytes read when there were `n` of them (`none` on EOF or unexpected EOF),
and the bytes still unread afterwards. -/
def readFull (n : Nat) (buf : List Byte) : Option (List Byte) × List Byte :=
  if n ≤ buf.length then (some (buf.take n), buf.drop n) else (none, [])

/-- Field-by-field decoding of a `cnMsg` from its 20 bytes. -/
def cnMsg.decode (bs : List Byte) : cnMsg :=
  { Id := ⟨byteOrder.Uint32 bs, byteOrder.Uint32 (bs.drop 4)⟩
    Seq := byteOrder.Uint32 (bs.drop 8)
    Ack := byteOrder.Uint32 (bs.drop 12)
    Len := byteOrder.Uint16 (bs.drop 16)
    Flags := byteOrder.Uint16 (bs.drop 18) }

def procEventHeader.decode (bs : List Byte) : procEventHeader :=
  { What := byteOrder.Uint32 bs
    Cpu := byteOrder.Uint32 (bs.drop 4)
    Timestamp := byteOrder.Uint64 (bs.drop 8) }

def forkProcEvent.decode (bs : List Byte) : forkProcEvent :=
  { ParentPid := byteOrder.Uint32 bs
    ParentTgid := byteOrder.Uint32 (bs.drop 4)
    ChildPid := byteOrder.Uint32 (bs.drop 8)
    ChildTgid := byteOrder.Uint32 (bs.drop 12) }

def execProcEvent.decode (bs : List Byte) : execProcEvent :=
  { ProcessPid := byteOrder.Uint32 bs
    ProcessTgid := byteOrder.Uint32 (bs.drop 4) }

def nsProcItem.decode (bs : List Byte) : nsProcItem :=
  { ItemType := byteOrder.Uint32 bs
    Flag := byteOrder.Uint32 (bs.drop 4)
    OldInum := byteOrder.Uint64 (bs.drop 8)
    Inum := byteOrder.Uint64 (bs.drop 16) }

def nsProcEvent.decode (bs : List Byte) : nsProcEvent :=
  { ProcessPid := byteOrder.Uint32 bs
    ProcessTgid := byteOrder.Uint32 (bs.drop 4)
    Reason := byteOrder.Uint32 (bs.drop 8)
    Count := byteOrder.Uint32 (bs.drop 12)
    Items :=
      [ nsProcItem.decode (bs.drop 16), nsProcItem.decode (bs.drop 40),
        nsProcItem.decode (bs.drop 64), nsProcItem.decode (bs.drop 88),
        nsProcItem.decode (bs.drop 112), nsProcItem.decode (bs.drop 136),
        nsProcItem.decode (bs.drop 160) ] }

def exitProcEvent.decode (bs : List Byte) : exitProcEvent :=
  { ProcessPid := byteOrder.Uint32 bs
    ProcessTgid := byteOrder.Uint32 (bs.drop 4)
    ExitCode := byteOrder.Uint32 (bs.drop 8)
    ExitSignal := byteOrder.Uint32 (bs.drop 12) }

/-- The statements `msg := &cnMsg{}; binary.Read(buf, byteOrder, msg)`. -/
def cnMsg.read (buf : List Byte) : cnMsg × List Byte :=
  match readFull cnMsg.size buf with
  | (some bs, rest) => (cnMsg.decode bs, rest)
  | (none, rest) => (cnMsg.zero, rest)

/-- The statements `hdr := &procEventHeader{}; binary.Read(buf, byteOrder, hdr)`. -/
def procEventHeader.read (buf : List Byte) : procEventHeader × List Byte :=
  match readFull procEventHeader.size buf with
  | (some bs, rest) => (procEventHeader.decode bs, rest)
  | (none, rest) => (procEventHeader.zero, rest)

/-- The statements `event := &forkProcEvent{}; binary.Read(buf, byteOrder, event)`. -/
def forkProcEvent.read (buf : List Byte) : forkProcEvent × List Byte :=
  match readFull forkProcEvent.size buf with
  | (some bs, rest) => (forkProcEvent.decode bs, rest)
  | (none, rest) => (forkProcEvent.zero, rest)

/-- The statements `event := &execProcEvent{}; binary.Read(buf, byteOrder, event)`. -/
def execProcEvent.read (buf : List Byte) : execProcEvent × List Byte :=
  match readFull execProcEvent.size buf with
  | (some bs, rest) => (execProcEvent.decode bs, rest)
  | (none, rest) => (execProcEvent.zero, rest)

/-- The statements `event := &nsProcEvent{}; binary.Read(buf, byteOrder, event)`. -/
def nsProcEvent.read (buf : List Byte) : nsProcEvent × List Byte :=
  match readFull nsProcEvent.size buf with
  | (some bs, rest) => (nsProcEvent.decode bs, rest)
  | (none, rest) => (nsProcEvent.zero, rest)

/-- The statements `event := &exitProcEvent{}; binary.Read(buf, byteOrder, event)`. -/
def exitProcEvent.read (buf : List Byte) : exitProcEvent × List Byte :=
  match readFull exitProcEvent.size buf with
  | (some bs, rest) => (exitProcEvent.decode bs, rest)
  | (none, rest) => (exitProcEvent.zero, rest)

/-! ## `binary.Write`: the fields in declaration order, little-endian -/

def cnMsg.encode (m : cnMsg) : List Byte :=
  byteOrder.PutUint32 m.Id.Idx ++ byteOrder.PutUint32 m.Id.Val
    ++ byteOrder.PutUint32 m.Seq ++ byteOrder.PutUint32 m.Ack
    ++ byteOrder.PutUint16 m.Len ++ byteOrder.PutUint16 m.Flags

def procEventHeader.encode (h : procEventHeader) : List Byte :=
  byteOrder.PutUint32 h.What ++ byteOrder.PutUint32 h.Cpu ++ byteOrder.PutUint64 h.Timestamp

def forkProcEvent.encode (e : forkProcEvent) : List Byte :=
  byteOrder.PutUint32 e.ParentPid ++ byteOrder.PutUint32 e.ParentTgid
    ++ byteOrder.PutUint32 e.ChildPid ++ byteOrder.PutUint32 e.ChildTgid

def execProcEvent.encode (e : execProcEvent) : List Byte :=
  byteOrder.PutUint32 e.ProcessPid ++ byteOrder.PutUint32 e.ProcessTgid

def nsProcItem.encode (it : nsProcItem) : List Byte :=
  byteOrder.PutUint32 it.ItemType ++ byteOrder.PutUint32 it.Flag
    ++ byteOrder.PutUint64 it.OldInum ++ byteOrder.PutUint64 it.Inum

def nsProcEvent.encode (e : nsProcEvent) : List Byte :=
  byteOrder.PutUint32 e.ProcessPid ++ byteOrder.PutUint32 e.ProcessTgid
    ++ byteOrder.PutUint32 e.Reason ++ byteOrder.PutUint32 e.Count
    ++ (e.Items.map nsProcItem.encode).flatten

def exitProcEvent.encode (e : exitProcEvent) : List Byte :=
  byteOrder.PutUint32 e.ProcessPid ++ byteOrder.PutUint32 e.ProcessTgid
    ++ byteOrder.PutUint32 e.ExitCode ++ byteOrder.PutUint32 e.ExitSignal

def NlMsghdr.encode (h : NlMsghdr) : List Byte :=
  byteOrder.PutUint32 h.Len ++ byteOrder.PutUint16 h.Type_ ++ byteOrder.PutUint16 h.Flags
    ++ byteOrder.PutUint32 h.Seq ++ byteOrder.PutUint32 h.Pid

def netlinkProcMessage.encode (pr : netlinkProcMessage) : List Byte :=
  pr.Header.encode ++ pr.Data.encode

/-! ## Output -/

/-- An operand of `fmt.Printf`: an integer of any of the unsigned or
non-negative kinds that occur, or a string. -/
inductive Arg where
  | num (n : Nat)
  | str (s : String)
deriving DecidableEq, Repr

/-- One call `fmt.Printf(format, args...)`. -/
structure Printf where
  format : String
  args : List Arg
deriving DecidableEq, Repr

/-- The text of one operand under the verb `v`: `%x` is lower-case base 16,
`%v` is base 10 for an integer and the string itself for a string, as is `%s`. -/
def Arg.text (v : Char) : Arg → List Char
  | Arg.num n => if v = 'x' then Nat.toDigits 16 n else Nat.toDigits 10 n
  | Arg.str s => s.data

/-- The expansion of a format string: each `%` followed by a verb takes the next
operand. -/
def sprintf : List Char → List Arg → List Char
  | '%' :: v :: cs, a :: as => Arg.text v a ++ sprintf cs as
  | c :: cs, as => c :: sprintf cs as
  | [], _ => []

/-- The text a call writes to standard output. -/
def Printf.render (p : Printf) : String := String.mk (sprintf p.format.data p.args)

/-- What a call of a handler did: the `Printf` calls it made, in order, and
whether it ended in a run-time panic. -/
structure Outcome where
  out : List Printf
  panicked : Bool
deriving DecidableEq, Repr

/-! ## `handleProcEvent` -/

/-- The inner `switch reason` of the namespace case. -/
def reasonStr (reason : Nat) : String :=
  if reason = 1 then "clone"
  else if reason = 2 then "setns"
  else if reason = 3 then "unshare"
  else "unknown"

/-- The inner `switch itemType` of the namespace loop. -/
def typeStr (itemType : Nat) : String :=
  if itemType = CLONE_NEWPID then "pid "
  else if itemType = CLONE_NEWNS then "mnt "
  else if itemType = CLONE_NEWNET then "net "
  else if itemType = CLONE_NEWUTS then "uts "
  else if itemType = CLONE_NEWIPC then "ipc "
  else if itemType = CLONE_NEWUSER then "user"
  else "unknown"

/-- The call `fmt.Printf("    type=%s %v -> %v\n", typeStr, oldInum, inum)` of
one loop iteration. -/
def nsItemLine (item : nsProcItem) : Printf :=
  ⟨"    type=%s %v -> %v\n", [Arg.str (typeStr item.ItemType), Arg.num item.OldInum, Arg.num item.Inum]⟩

/-- The loop `for i := 0; i < count; i++ { ... event.Items[i] ... }`, entered at
index `i` with `count - i` iterations still to go (the last argument): the loop
condition `i < count` holds exactly when that number is positive.  Indexing the
array at an index it does not have is the Go run-time panic. -/
def nsItemsLoop (event : nsProcEvent) (i : Nat) : Nat → Outcome
  | 0 => ⟨[], false⟩
  | n + 1 =>
    match event.Items[i]? with
    | none => ⟨[], true⟩
    | some item =>
      let r := nsItemsLoop event (i + 1) n
      ⟨nsItemLine item :: r.out, r.panicked⟩

/-- The function `handleProcEvent(data []byte)`. -/
def handleProcEvent (data : List Byte) : Outcome :=
  let r1 := cnMsg.read data
  let msg := r1.1
  let r2 := procEventHeader.read r1.2
  let hdr := r2.1
  let buf := r2.2
  if hdr.What = PROC_EVENT_NONE then
    ⟨[⟨"none: flags=%v\n", [Arg.num msg.Flags]⟩], false⟩
  else if hdr.What = PROC_EVENT_FORK then
    let event := (forkProcEvent.read buf).1
    let ppid := event.ParentTgid
    let pid := event.ChildTgid
    ⟨[⟨"fork: ppid=%v pid=%v\n", [Arg.num ppid, Arg.num pid]⟩], false⟩
  else if hdr.What = PROC_EVENT_EXEC then
    let event := (execProcEvent.read buf).1
    let pid := event.ProcessTgid
    ⟨[⟨"exec: pid=%v\n", [Arg.num pid]⟩], false⟩
  else if hdr.What = PROC_EVENT_NS then
    let event := (nsProcEvent.read buf).1
    let pid := event.ProcessTgid
    let count := event.Count
    let reason := event.Reason
    let r := nsItemsLoop event 0 count
    ⟨⟨"ns: pid=%v reason=%v count=%v\n", [Arg.num pid, Arg.str (reasonStr reason), Arg.num count]⟩
        :: r.out, r.panicked⟩
  else if hdr.What = PROC_EVENT_EXIT then
    let event := (exitProcEvent.read buf).1
    let pid := event.ProcessTgid
    ⟨[⟨"exit: pid=%v\n", [Arg.num pid]⟩], false⟩
  else if hdr.What = PROC_EVENT_UID then ⟨[], false⟩
  else if hdr.What = PROC_EVENT_GID then ⟨[], false⟩
  else if hdr.What = PROC_EVENT_SID then ⟨[], false⟩
  else if hdr.What = PROC_EVENT_PTRACE then ⟨[], false⟩
  else if hdr.What = PROC_EVENT_COMM then ⟨[], false⟩
  else if hdr.What = PROC_EVENT_COREDUMP then ⟨[], false⟩
  else
    ⟨[⟨"???: what=%x\n", [Arg.num hdr.What]⟩], false⟩

/-! ## Well-formed struct values: every field fits its width -/

abbrev fits16 (v : Nat) : Prop := v < 65536
abbrev fits32 (v : Nat) : Prop := v < 4294967296
abbrev fits64 (v : Nat) : Prop := v < 18446744073709551616

abbrev cnMsg.wf (m : cnMsg) : Prop :=
  fits32 m.Id.Idx ∧ fits32 m.Id.Val ∧ fits32 m.Seq ∧ fits32 m.Ack ∧ fits16 m.Len ∧ fits16 m.Flags

abbrev procEventHeader.wf (h : procEventHeader) : Prop :=
  fits32 h.What ∧ fits32 h.Cpu ∧ fits64 h.Timestamp

abbrev forkProcEvent.wf (e : forkProcEvent) : Prop :=
  fits32 e.ParentPid ∧ fits32 e.ParentTgid ∧ fits32 e.ChildPid ∧ fits32 e.ChildTgid

abbrev execProcEvent.wf (e : execProcEvent) : Prop :=
  fits32 e.ProcessPid ∧ fits32 e.ProcessTgid

abbrev exitProcEvent.wf (e : exitProcEvent) : Prop :=
  fits32 e.ProcessPid ∧ fits32 e.ProcessTgid ∧ fits32 e.ExitCode ∧ fits32 e.ExitSignal

abbrev nsProcItem.wf (it : nsProcItem) : Prop :=
  fits32 it.ItemType ∧ fits32 it.Flag ∧ fits64 it.OldInum ∧ fits64 it.Inum

abbrev nsProcEvent.wf (e : nsProcEvent) : Prop :=
  fits32 e.ProcessPid ∧ fits32 e.ProcessTgid ∧ fits32 e.Reason ∧ fits32 e.Count
    ∧ e.Items.length = 7 ∧ ∀ it ∈ e.Items, it.wf

/-- The unread bytes when `handleProcEvent` enters its `switch`. -/
def eventBuffer (data : List Byte) : List Byte := (procEventHeader.read (cnMsg.read data).2).2

/-- The header `handleProcEvent` switches on. -/
def eventHeader (data : List Byte) : procEventHeader := (procEventHeader.read (cnMsg.read data).2).1

/-! ## `subscribe` -/

/-- The function `subscribe(sock, addr, op)`.  Its inputs are the value of the
package variable `seq` before the call, the result of `os.Getpid()` and the
action code `op`; its results are the value of `seq` after the call and the
buffer handed to `syscall.Sendto`. -/
def subscribe (seq : Nat) (getpid : Nat) (op : Nat) : Nat × List Byte :=
  -- seq++ on a uint32
  let seq := (seq + 1) % 4294967296
  -- plen := binary.Size(pr.Data) + binary.Size(op)
  let plen := cnMsg.size + 4
  let pr : netlinkProcMessage :=
    { Header :=
        { Len := (NLMSG_HDRLEN + plen % 4294967296) % 4294967296
          Type_ := NLMSG_DONE % 65536
          Flags := 0
          Seq := seq
          Pid := getpid % 4294967296 }
      Data :=
        { Id := ⟨CN_IDX_PROC, CN_VAL_PROC⟩
          Seq := 0
          Ack := 0
          Len := 4 % 65536
          Flags := 0 } }
  -- binary.Write(buf, byteOrder, pr); binary.Write(buf, byteOrder, op)
  let buf := pr.encode ++ byteOrder.PutUint32 op
  (seq, buf)

/-! ## `syscall.ParseNetlinkMessage` (Go standard library, linux) -/

/-- The function `nlmAlignOf`: `(msglen + NLMSG_ALIGNTO - 1) & ^(NLMSG_ALIGNTO - 1)`. -/
def nlmAlignOf (msglen : Nat) : Nat :=
  (msglen + NLMSG_ALIGNTO - 1) / NLMSG_ALIGNTO * NLMSG_ALIGNTO

/-- The header the library reads in place at the front of `b` (host byte order,
little-endian here). -/
def NlMsghdr.decode (b : List Byte) : NlMsghdr :=
  { Len := byteOrder.Uint32 b
    Type_ := byteOrder.Uint16 (b.drop 4)
    Flags := byteOrder.Uint16 (b.drop 6)
    Seq := byteOrder.Uint32 (b.drop 8)
    Pid := byteOrder.Uint32 (b.drop 12) }

/-- The function `netlinkMessageHeaderAndData`; `none` is the error `EINVAL`. -/
def netlinkMessageHeaderAndData (b : List Byte) : Option (NlMsghdr × List Byte × Nat) :=
  let h := NlMsghdr.decode b
  let l := nlmAlignOf h.Len
  if h.Len < NLMSG_HDRLEN ∨ l > b.length then none
  else some (h, b.drop NLMSG_HDRLEN, l)

/-- The loop `for len(b) >= NLMSG_HDRLEN { ... b = b[dlen:] }` of
`ParseNetlinkMessage`, with a bound on the number of iterations.  Every
iteration removes at least 16 bytes, so a bound of `len(b)` is never reached
before the loop condition fails (`parseLoop_fuel` below). `none` is the error
return, which discards the messages collected so far. -/
def parseLoop : Nat → List Byte → Option (List NetlinkMessage)
  | 0, _ => some []
  | fuel + 1, b =>
    if NLMSG_HDRLEN ≤ b.length then
      match netlinkMessageHeaderAndData b with
      | none => none
      | some (h, dbuf, dlen) =>
        match parseLoop fuel (b.drop dlen) with
        | none => none
        | some msgs => some (⟨h, dbuf.take (h.Len - NLMSG_HDRLEN)⟩ :: msgs)
    else some []

/-- The function `syscall.ParseNetlinkMessage`. -/
def ParseNetlinkMessage (b : List Byte) : Option (List NetlinkMessage) :=
  parseLoop b.length b

/-! ## `receive` -/

/-- What the receive loop did: the payloads it handed to `handleProcEvent`, in
order, the `Printf` calls made, in order, and whether it ended in a panic. -/
structure Trace where
  handed : List (List Byte)
  out : List Printf
  panicked : Bool
deriving DecidableEq, Repr

/-- The loop `for _, m := range msgs { if m.Header.Type == syscall.NLMSG_DONE
{ handleProcEvent(m.Data) } }`.  A panic inside the handler ends the program. -/
def rangeMsgs : List NetlinkMessage → Trace
  | [] => ⟨[], [], false⟩
  | m :: ms =>
    if m.Header.Type_ = NLMSG_DONE then
      let r := handleProcEvent m.Data
      if r.panicked then ⟨[m.Data], r.out, true⟩
      else
        let t := rangeMsgs ms
        ⟨m.Data :: t.handed, r.out ++ t.out, t.panicked⟩
    else rangeMsgs ms

/-- One iteration of the loop of `receive`, for a `Recvfrom` that succeeded and
filled `buf[:nr]` with `datagram`.  The error of `ParseNetlinkMessage` is
dropped, its message list is then nil. -/
def receiveOne (datagram : List Byte) : Trace :=
  if datagram.length < NLMSG_HDRLEN then ⟨[], [], false⟩
  else rangeMsgs ((ParseNetlinkMessage datagram).getD [])

/-- The function `receive`, run on the datagrams that the successive calls of
`Recvfrom` return. -/
def receive : List (List Byte) → Trace
  | [] => ⟨[], [], false⟩
  | d :: ds =>
    let t := receiveOne d
    if t.panicked then t
    else
      let u := receive ds
      ⟨t.handed ++ u.handed, t.out ++ u.out, u.panicked⟩

/-! ## Record payloads as the kernel lays them out -/

/-- A record payload: the connector envelope, the event header, then the bytes
of the event. -/
def recordPayload (m : cnMsg) (h : procEventHeader) (body : List Byte) : List Byte :=
  m.encode ++ h.encode ++ body

/-- A record payload with a namespace event whose count field is 8. -/
def nsOverflowPayload : List Byte :=
  recordPayload ⟨⟨1, 1⟩, 0, 0, 208, 0⟩ ⟨PROC_EVENT_NS, 0, 99⟩
    (nsProcEvent.mk 41 42 1 8
      [⟨CLONE_NEWPID, 0, 11, 12⟩, ⟨CLONE_NEWNS, 0, 21, 22⟩, ⟨CLONE_NEWNET, 0, 31, 32⟩,
       ⟨CLONE_NEWUTS, 0, 41, 42⟩, ⟨CLONE_NEWIPC, 0, 51, 52⟩, ⟨CLONE_NEWUSER, 0, 61, 62⟩,
       ⟨5, 0, 71, 72⟩]).encode

/-- A record payload with the fork event 7/7 -> 8/8. -/
def forkPayload : List Byte :=
  recordPayload ⟨⟨1, 1⟩, 0, 0, 40, 0⟩ ⟨PROC_EVENT_FORK, 0, 99⟩ (forkProcEvent.mk 7 7 8 8).encode

/-- A datagram of two `NLMSG_DONE` records: the namespace record with count 8
(16 + 220 bytes), then the fork record (16 + 52 bytes). -/
def twoRecordDatagram : List Byte :=
  (NlMsghdr.mk 236 NLMSG_DONE 0 0 0).encode ++ nsOverflowPayload
    ++ (NlMsghdr.mk 68 NLMSG_DONE 0 0 0).encode ++ forkPayload

abbrev NlMsghdr.wf (h : NlMsghdr) : Prop :=
  fits32 h.Len ∧ fits16 h.Type_ ∧ fits16 h.Flags ∧ fits32 h.Seq ∧ fits32 h.Pid

/-! ## The legacy variant `nmwatch.go`

`nmwatch.go` declares the same constants `PROC_EVENT_FORK`, `PROC_EVENT_EXEC`,
`PROC_EVENT_EXIT`, the same structs `cnMsg`, `procEventHeader`, `forkProcEvent`,
`execProcEvent`, `exitProcEvent` and the same byte order as `nswatch.go`; they
are shared here.  Its own declarations follow. -/

def PROC_EVENT_NM : Nat := 0x00000400

/-- The single-item namespace event of `nmwatch.go`. -/
structure nmProcEvent where
  ProcessPid : Nat
  ProcessTgid : Nat
  NmType : Nat
  NmReason : Nat
  OldInum : Nat
  Inum : Nat
deriving DecidableEq, Repr

def nmProcEvent.zero : nmProcEvent := ⟨0, 0, 0, 0, 0, 0⟩

def nmProcEvent.size : Nat := 4 + 4 + 4 + 4 + 8 + 8

def nmProcEvent.decode (bs : List Byte) : nmProcEvent :=
  { ProcessPid := byteOrder.Uint32 bs
    ProcessTgid := byteOrder.Uint32 (bs.drop 4)
    NmType := byteOrder.Uint32 (bs.drop 8)
    NmReason := byteOrder.Uint32 (bs.drop 12)
    OldInum := byteOrder.Uint64 (bs.drop 16)
    Inum := byteOrder.Uint64 (bs.drop 24) }

/-- The statements `event := &nmProcEvent{}; binary.Read(buf, byteOrder, event)`. -/
def nmProcEvent.read (buf : List Byte) : nmProcEvent × List Byte :=
  match readFull nmProcEvent.size buf with
  | (some bs, rest) => (nmProcEvent.decode bs, rest)
  | (none, rest) => (nmProcEvent.zero, rest)

def nmProcEvent.encode (e : nmProcEvent) : List Byte :=
  byteOrder.PutUint32 e.ProcessPid ++ byteOrder.PutUint32 e.ProcessTgid
    ++ byteOrder.PutUint32 e.NmType ++ byteOrder.PutUint32 e.NmReason
    ++ byteOrder.PutUint64 e.OldInum ++ byteOrder.PutUint64 e.Inum

abbrev nmProcEvent.wf (e : nmProcEvent) : Prop :=
  fits32 e.ProcessPid ∧ fits32 e.ProcessTgid ∧ fits32 e.NmType ∧ fits32 e.NmReason
    ∧ fits64 e.OldInum ∧ fits64 e.Inum

/-- The inner `switch nmType` of `handleEvent`, which sets its local `typeStr`. -/
def nmTypeStr (nmType : Nat) : String :=
  if nmType = CLONE_NEWPID then "pid"
  else if nmType = CLONE_NEWNS then "mnt"
  else if nmType = CLONE_NEWNET then "net"
  else if nmType = CLONE_NEWUTS then "uts"
  else if nmType = CLONE_NEWIPC then "ipc"
  else if nmType = CLONE_NEWUSER then "user"
  else "unknown"

/-- The function `handleEvent(data []byte)` of `nmwatch.go`; its `switch` has no
default case. -/
def handleEvent (data : List Byte) : Outcome :=
  let r1 := cnMsg.read data
  let r2 := procEventHeader.read r1.2
  let hdr := r2.1
  let buf := r2.2
  if hdr.What = PROC_EVENT_FORK then
    let event := (forkProcEvent.read buf).1
    let ppid := event.ParentTgid
    let pid := event.ChildTgid
    ⟨[⟨"fork: ppid=%v pid=%v\n", [Arg.num ppid, Arg.num pid]⟩], false⟩
  else if hdr.What = PROC_EVENT_EXEC then
    let event := (execProcEvent.read buf).1
    let pid := event.ProcessTgid
    ⟨[⟨"exec: pid=%v\n", [Arg.num pid]⟩], false⟩
  else if hdr.What = PROC_EVENT_NM then
    let event := (nmProcEvent.read buf).1
    let pid := event.ProcessTgid
    let nmType := event.NmType
    let nmReason := event.NmReason
    let oldInum := event.OldInum
    let inum := event.Inum
    ⟨[⟨"nm: pid=%v type=%v reason=%v old_inum=%v inum=%v\n",
        [Arg.num pid, Arg.str (nmTypeStr nmType), Arg.num nmReason, Arg.num oldInum,
         Arg.num inum]⟩], false⟩
  else if hdr.What = PROC_EVENT_EXIT then
    let event := (exitProcEvent.read buf).1
    let pid := event.ProcessTgid
    ⟨[⟨"exit: pid=%v\n", [Arg.num pid]⟩], false⟩
  else ⟨[], false⟩

/-! ## The namespace kinds in the words of the specification -/

/-- The specification's table of namespace kinds: the symbolic name of a type
code, "unknown" for a code that is none of the six constants. -/
def nsKindName (t : Nat) : String :=
  if t = 0x20000000 then "pid"
  else if t = 0x00020000 then "mnt"
  else if t = 0x40000000 then "net"
  else if t = 0x04000000 then "uts"
  else if t = 0x08000000 then "ipc"
  else if t = 0x10000000 then "user"
  else "unknown"

/-- A name filled with blanks on the right up to four columns, the width of the
type column that `handleProcEvent` prints. -/
def padTo4 (s : String) : String :=
  String.mk (s.data ++ List.replicate (4 - s.data.length) ' ')

/-! # Theorems -/

theorem readFull_append (n : Nat) (xs ys : List Byte) (h : xs.length = n) :
    readFull n (xs ++ ys) = (some xs, ys) := by
  subst h
  simp [readFull]

theorem readFull_short (n : Nat) (buf : List Byte) (h : buf.length < n) :
    readFull n buf = (none, []) := by
  simp [readFull]; omega

theorem cnMsg_length_encode (m : cnMsg) : m.encode.length = 20 := by
  simp [cnMsg.encode, byteOrder.PutUint32, byteOrder.PutUint16]

theorem cnMsg_decode_encode (m : cnMsg) (h : m.wf) : cnMsg.decode m.encode = m := by
  obtain ⟨⟨a, b⟩, c, d, e, f⟩ := m
  simp only [cnMsg.wf, fits32, fits16] at h
  simp [cnMsg.decode, cnMsg.encode, byteOrder.Uint32, byteOrder.PutUint32, byteOrder.Uint16,
    byteOrder.PutUint16, at8, toByte]
  refine ⟨⟨?_, ?_⟩, ?_, ?_, ?_, ?_⟩ <;> omega

theorem cnMsg_read_encode (m : cnMsg) (h : m.wf) (rest : List Byte) :
    cnMsg.read (m.encode ++ rest) = (m, rest) := by
  simp [cnMsg.read, cnMsg.size, readFull_append _ _ _ (cnMsg_length_encode m), cnMsg_decode_encode m h]

theorem procEventHeader_length_encode (m : procEventHeader) : m.encode.length = 16 := by
  simp [procEventHeader.encode, byteOrder.PutUint32, byteOrder.PutUint64]

theorem procEventHeader_decode_encode (m : procEventHeader) (h : m.wf) :
    procEventHeader.decode m.encode = m := by
  obtain ⟨a, b, c⟩ := m
  simp only [procEventHeader.wf, fits32, fits64] at h
  simp [procEventHeader.decode, procEventHeader.encode, byteOrder.Uint32, byteOrder.PutUint32,
    byteOrder.Uint64, byteOrder.PutUint64, at8, toByte]
  refine ⟨?_, ?_, ?_⟩ <;> omega

theorem procEventHeader_read_encode (m : procEventHeader) (h : m.wf) (rest : List Byte) :
    procEventHeader.read (m.encode ++ rest) = (m, rest) := by
  simp [procEventHeader.read, procEventHeader.size,
    readFull_append _ _ _ (procEventHeader_length_encode m), procEventHeader_decode_encode m h]

theorem nsProcItem_length_encode (m : nsProcItem) : m.encode.length = 24 := by
  simp [nsProcItem.encode, byteOrder.PutUint32, byteOrder.PutUint64]

theorem nsProcItem_decode_encode (m : nsProcItem) (h : m.wf) (rest : List Byte) :
    nsProcItem.decode (m.encode ++ rest) = m := by
  obtain ⟨a, b, c, d⟩ := m
  simp only [nsProcItem.wf, fits32, fits64] at h
  simp [nsProcItem.decode, nsProcItem.encode, byteOrder.Uint32, byteOrder.PutUint32,
    byteOrder.Uint64, byteOrder.PutUint64, at8, toByte]
  refine ⟨?_, ?_, ?_, ?_⟩ <;> omega

theorem nsProcEvent_length_encode (e : nsProcEvent) (h : e.Items.length = 7) :
    e.encode.length = 184 := by
  obtain ⟨a, b, c, d, items⟩ := e
  match items, h with
  | [i0, i1, i2, i3, i4, i5, i6], _ =>
    simp [nsProcEvent.encode, byteOrder.PutUint32, nsProcItem_length_encode]

theorem drop_PutUint32 (n v : Nat) (xs : List Byte) :
    List.drop (4 + n) (byteOrder.PutUint32 v ++ xs) = List.drop n xs := by
  rw [← List.drop_drop]; simp [byteOrder.PutUint32]

theorem drop_item_encode (n : Nat) (it : nsProcItem) (xs : List Byte) :
    List.drop (24 + n) (it.encode ++ xs) = List.drop n xs := by
  rw [← List.drop_drop, List.drop_left' (nsProcItem_length_encode it)]

theorem Uint32_PutUint32 (v : Nat) (h : fits32 v) (rest : List Byte) :
    byteOrder.Uint32 (byteOrder.PutUint32 v ++ rest) = v := by
  simp only [fits32] at h
  simp [byteOrder.Uint32, byteOrder.PutUint32, at8, toByte]
  omega

theorem nsProcEvent_decode_encode_aux (a b c d : Nat) (i0 i1 i2 i3 i4 i5 i6 : nsProcItem)
    (ha : fits32 a) (hb : fits32 b) (hc : fits32 c) (hd : fits32 d)
    (h0 : i0.wf) (h1 : i1.wf) (h2 : i2.wf) (h3 : i3.wf) (h4 : i4.wf) (h5 : i5.wf) (h6 : i6.wf) :
    nsProcEvent.decode (nsProcEvent.encode ⟨a, b, c, d, [i0, i1, i2, i3, i4, i5, i6]⟩)
      = ⟨a, b, c, d, [i0, i1, i2, i3, i4, i5, i6]⟩ := by
  have hbs : nsProcEvent.encode ⟨a, b, c, d, [i0, i1, i2, i3, i4, i5, i6]⟩
      = byteOrder.PutUint32 a ++ (byteOrder.PutUint32 b ++ (byteOrder.PutUint32 c ++
        (byteOrder.PutUint32 d ++ (i0.encode ++ (i1.encode ++ (i2.encode ++ (i3.encode ++
        (i4.encode ++ (i5.encode ++ (i6.encode ++ [])))))))))) := by
    simp [nsProcEvent.encode]
  rw [hbs]
  have k4 : ∀ (v : Nat) (xs : List Byte), List.drop 4 (byteOrder.PutUint32 v ++ xs) = xs := by
    intro v xs; simp [byteOrder.PutUint32]
  have k8 : ∀ (l : List Byte), List.drop 8 l = List.drop 4 (List.drop 4 l) := by
    intro l; rw [List.drop_drop]
  have k12 : ∀ (l : List Byte), List.drop 12 l = List.drop 4 (List.drop 8 l) := by
    intro l; rw [List.drop_drop]
  have k16 : ∀ (l : List Byte), List.drop 16 l = List.drop 4 (List.drop 12 l) := by
    intro l; rw [List.drop_drop]
  have k24 : ∀ (it : nsProcItem) (xs : List Byte), List.drop 24 (it.encode ++ xs) = xs := by
    intro it xs; exact List.drop_left' (nsProcItem_length_encode it)
  have k40 : ∀ (l : List Byte), List.drop 40 l = List.drop 24 (List.drop 16 l) := by
    intro l; rw [List.drop_drop]
  have k64 : ∀ (l : List Byte), List.drop 64 l = List.drop 24 (List.drop 40 l) := by
    intro l; rw [List.drop_drop]
  have k88 : ∀ (l : List Byte), List.drop 88 l = List.drop 24 (List.drop 64 l) := by
    intro l; rw [List.drop_drop]
  have k112 : ∀ (l : List Byte), List.drop 112 l = List.drop 24 (List.drop 88 l) := by
    intro l; rw [List.drop_drop]
  have k136 : ∀ (l : List Byte), List.drop 136 l = List.drop 24 (List.drop 112 l) := by
    intro l; rw [List.drop_drop]
  have k160 : ∀ (l : List Byte), List.drop 160 l = List.drop 24 (List.drop 136 l) := by
    intro l; rw [List.drop_drop]
  unfold nsProcEvent.decode
  simp only [k160, k136, k112, k88, k64, k40, k16, k12, k8, k4, k24, Uint32_PutUint32 _ ha,
    Uint32_PutUint32 _ hb, Uint32_PutUint32 _ hc, Uint32_PutUint32 _ hd,
    nsProcItem_decode_encode _ h0, nsProcItem_decode_encode _ h1, nsProcItem_decode_encode _ h2,
    nsProcItem_decode_encode _ h3, nsProcItem_decode_encode _ h4, nsProcItem_decode_encode _ h5,
    nsProcItem_decode_encode _ h6]

theorem nsProcEvent_decode_encode (e : nsProcEvent) (h : e.wf) :
    nsProcEvent.decode e.encode = e := by
  obtain ⟨a, b, c, d, items⟩ := e
  obtain ⟨ha, hb, hc, hd, hl, hi⟩ := h
  match items, hl, hi with
  | [i0, i1, i2, i3, i4, i5, i6], _, hi =>
    simp only [List.mem_cons, forall_eq_or_imp, List.mem_singleton, forall_eq, List.not_mem_nil,
      false_imp_iff, implies_true, and_true] at hi
    obtain ⟨h0, h1, h2, h3, h4, h5, h6⟩ := hi
    exact nsProcEvent_decode_encode_aux a b c d i0 i1 i2 i3 i4 i5 i6 ha hb hc hd h0 h1 h2 h3 h4 h5 h6


theorem forkProcEvent_length_encode (e : forkProcEvent) : e.encode.length = 16 := by
  simp [forkProcEvent.encode, byteOrder.PutUint32]

theorem forkProcEvent_decode_encode (e : forkProcEvent) (h : e.wf) :
    forkProcEvent.decode e.encode = e := by
  obtain ⟨a, b, c, d⟩ := e
  simp only [forkProcEvent.wf, fits32] at h
  simp [forkProcEvent.decode, forkProcEvent.encode, byteOrder.Uint32, byteOrder.PutUint32, at8,
    toByte]
  refine ⟨?_, ?_, ?_, ?_⟩ <;> omega

theorem forkProcEvent_read_encode (e : forkProcEvent) (h : e.wf) (rest : List Byte) :
    forkProcEvent.read (e.encode ++ rest) = (e, rest) := by
  simp [forkProcEvent.read, forkProcEvent.size,
    readFull_append _ _ _ (forkProcEvent_length_encode e), forkProcEvent_decode_encode e h]

theorem execProcEvent_length_encode (e : execProcEvent) : e.encode.length = 8 := by
  simp [execProcEvent.encode, byteOrder.PutUint32]

theorem execProcEvent_decode_encode (e : execProcEvent) (h : e.wf) :
    execProcEvent.decode e.encode = e := by
  obtain ⟨a, b⟩ := e
  simp only [execProcEvent.wf, fits32] at h
  simp [execProcEvent.decode, execProcEvent.encode, byteOrder.Uint32, byteOrder.PutUint32, at8,
    toByte]
  refine ⟨?_, ?_⟩ <;> omega

theorem execProcEvent_read_encode (e : execProcEvent) (h : e.wf) (rest : List Byte) :
    execProcEvent.read (e.encode ++ rest) = (e, rest) := by
  simp [execProcEvent.read, execProcEvent.size,
    readFull_append _ _ _ (execProcEvent_length_encode e), execProcEvent_decode_encode e h]

theorem exitProcEvent_length_encode (e : exitProcEvent) : e.encode.length = 16 := by
  simp [exitProcEvent.encode, byteOrder.PutUint32]

theorem exitProcEvent_decode_encode (e : exitProcEvent) (h : e.wf) :
    exitProcEvent.decode e.encode = e := by
  obtain ⟨a, b, c, d⟩ := e
  simp only [exitProcEvent.wf, fits32] at h
  simp [exitProcEvent.decode, exitProcEvent.encode, byteOrder.Uint32, byteOrder.PutUint32, at8,
    toByte]
  refine ⟨?_, ?_, ?_, ?_⟩ <;> omega

theorem exitProcEvent_read_encode (e : exitProcEvent) (h : e.wf) (rest : List Byte) :
    exitProcEvent.read (e.encode ++ rest) = (e, rest) := by
  simp [exitProcEvent.read, exitProcEvent.size,
    readFull_append _ _ _ (exitProcEvent_length_encode e), exitProcEvent_decode_encode e h]

theorem nsProcEvent_read_encode (e : nsProcEvent) (h : e.wf) (rest : List Byte) :
    nsProcEvent.read (e.encode ++ rest) = (e, rest) := by
  simp [nsProcEvent.read, nsProcEvent.size, nsProcItem.size,
    readFull_append _ _ _ (nsProcEvent_length_encode e h.2.2.2.2.1), nsProcEvent_decode_encode e h]

/-! ### The envelope and header of a well-formed record payload -/

theorem cnMsg_read_recordPayload (m : cnMsg) (h : procEventHeader) (body : List Byte)
    (hm : m.wf) : cnMsg.read (recordPayload m h body) = (m, h.encode ++ body) := by
  simp [recordPayload, List.append_assoc, cnMsg_read_encode m hm]

theorem eventHeader_recordPayload (m : cnMsg) (h : procEventHeader) (body : List Byte)
    (hm : m.wf) (hh : h.wf) : eventHeader (recordPayload m h body) = h := by
  simp [eventHeader, cnMsg_read_recordPayload m h body hm, procEventHeader_read_encode h hh]

theorem eventBuffer_recordPayload (m : cnMsg) (h : procEventHeader) (body : List Byte)
    (hm : m.wf) (hh : h.wf) : eventBuffer (recordPayload m h body) = body := by
  simp [eventBuffer, cnMsg_read_recordPayload m h body hm, procEventHeader_read_encode h hh]

/-! ### `handleProcEvent`, one case of the `switch` at a time -/

theorem handleProcEvent_none (data : List Byte) (h : (eventHeader data).What = PROC_EVENT_NONE) :
    handleProcEvent data = ⟨[⟨"none: flags=%v\n", [Arg.num (cnMsg.read data).1.Flags]⟩], false⟩ := by
  unfold eventHeader at h
  simp [handleProcEvent, h]

theorem handleProcEvent_fork (data : List Byte) (h : (eventHeader data).What = PROC_EVENT_FORK) :
    handleProcEvent data
      = ⟨[⟨"fork: ppid=%v pid=%v\n",
            [Arg.num (forkProcEvent.read (eventBuffer data)).1.ParentTgid,
             Arg.num (forkProcEvent.read (eventBuffer data)).1.ChildTgid]⟩], false⟩ := by
  unfold eventHeader at h
  simp [handleProcEvent, h, eventBuffer, PROC_EVENT_FORK, PROC_EVENT_NONE]

theorem handleProcEvent_exec (data : List Byte) (h : (eventHeader data).What = PROC_EVENT_EXEC) :
    handleProcEvent data
      = ⟨[⟨"exec: pid=%v\n", [Arg.num (execProcEvent.read (eventBuffer data)).1.ProcessTgid]⟩],
          false⟩ := by
  unfold eventHeader at h
  simp [handleProcEvent, h, eventBuffer, PROC_EVENT_FORK, PROC_EVENT_NONE, PROC_EVENT_EXEC]

theorem handleProcEvent_ns (data : List Byte) (h : (eventHeader data).What = PROC_EVENT_NS) :
    handleProcEvent data
      = ⟨⟨"ns: pid=%v reason=%v count=%v\n",
            [Arg.num (nsProcEvent.read (eventBuffer data)).1.ProcessTgid,
             Arg.str (reasonStr (nsProcEvent.read (eventBuffer data)).1.Reason),
             Arg.num (nsProcEvent.read (eventBuffer data)).1.Count]⟩
          :: (nsItemsLoop (nsProcEvent.read (eventBuffer data)).1 0
                (nsProcEvent.read (eventBuffer data)).1.Count).out,
         (nsItemsLoop (nsProcEvent.read (eventBuffer data)).1 0
                (nsProcEvent.read (eventBuffer data)).1.Count).panicked⟩ := by
  unfold eventHeader at h
  simp [handleProcEvent, h, eventBuffer, PROC_EVENT_FORK, PROC_EVENT_NONE, PROC_EVENT_EXEC,
    PROC_EVENT_NS]

theorem handleProcEvent_exit (data : List Byte) (h : (eventHeader data).What = PROC_EVENT_EXIT) :
    handleProcEvent data
      = ⟨[⟨"exit: pid=%v\n", [Arg.num (exitProcEvent.read (eventBuffer data)).1.ProcessTgid]⟩],
          false⟩ := by
  unfold eventHeader at h
  simp [handleProcEvent, h, eventBuffer, PROC_EVENT_FORK, PROC_EVENT_NONE, PROC_EVENT_EXEC,
    PROC_EVENT_NS, PROC_EVENT_EXIT]

/-! ### The item loop of the namespace case -/

theorem nsItemsLoop_in_range (event : nsProcEvent) (n : Nat) :
    ∀ (i : Nat), i + n ≤ event.Items.length →
      nsItemsLoop event i n = ⟨((event.Items.drop i).take n).map nsItemLine, false⟩ := by
  induction n with
  | zero => intro i _; simp [nsItemsLoop]
  | succ n ih =>
    intro i hi
    have hlt : i < event.Items.length := by omega
    have hd : event.Items.drop i = event.Items[i] :: event.Items.drop (i + 1) :=
      List.drop_eq_getElem_cons hlt
    rw [hd, List.take_succ_cons, List.map_cons]
    simp only [nsItemsLoop, List.getElem?_eq_getElem hlt, ih (i + 1) (by omega)]

theorem nsItemsLoop_take (event : nsProcEvent) (h : event.Count ≤ event.Items.length) :
    nsItemsLoop event 0 event.Count = ⟨(event.Items.take event.Count).map nsItemLine, false⟩ := by
  simpa using nsItemsLoop_in_range event event.Count 0 (by omega)

/-- The namespace case on a well-formed payload whose count is within the array. -/
theorem handleProcEvent_ns_payload (m : cnMsg) (cpu ts : Nat) (ev : nsProcEvent)
    (rest : List Byte) (hm : m.wf) (hcpu : fits32 cpu) (hts : fits64 ts) (hev : ev.wf)
    (hk : ev.Count ≤ 7) :
    handleProcEvent (recordPayload m ⟨PROC_EVENT_NS, cpu, ts⟩ (ev.encode ++ rest))
      = ⟨⟨"ns: pid=%v reason=%v count=%v\n",
            [Arg.num ev.ProcessTgid, Arg.str (reasonStr ev.Reason), Arg.num ev.Count]⟩
          :: (ev.Items.take ev.Count).map nsItemLine, false⟩ := by
  have hN : procEventHeader.wf ⟨PROC_EVENT_NS, cpu, ts⟩ :=
    ⟨(by decide : fits32 PROC_EVENT_NS), hcpu, hts⟩
  have hlen : ev.Count ≤ ev.Items.length := by rw [hev.2.2.2.2.1]; exact hk
  rw [handleProcEvent_ns _ (by rw [eventHeader_recordPayload m _ _ hm hN]),
    eventBuffer_recordPayload m _ _ hm hN, nsProcEvent_read_encode ev hev,
    nsItemsLoop_take ev hlen]

/-! ### Panics, ignored tags, unknown tags -/

theorem nsItemsLoop_out_of_range (event : nsProcEvent) (n : Nat) :
    ∀ (i : Nat), i ≤ event.Items.length → event.Items.length < i + n →
      nsItemsLoop event i n = ⟨(event.Items.drop i).map nsItemLine, true⟩ := by
  induction n with
  | zero => intro i h1 h2; omega
  | succ n ih =>
    intro i h1 h2
    by_cases hlt : i < event.Items.length
    · have hd : event.Items.drop i = event.Items[i] :: event.Items.drop (i + 1) :=
        List.drop_eq_getElem_cons hlt
      rw [hd, List.map_cons]
      simp only [nsItemsLoop, List.getElem?_eq_getElem hlt, ih (i + 1) (by omega) (by omega)]
    · have hn : event.Items[i]? = none := List.getElem?_eq_none (by omega)
      have hd : event.Items.drop i = [] := List.drop_eq_nil_of_le (by omega)
      simp only [nsItemsLoop, hn, hd, List.map_nil]

theorem nsProcEvent_read_items_length (buf : List Byte) :
    (nsProcEvent.read buf).1.Items.length = 7 := by
  unfold nsProcEvent.read readFull
  split_ifs <;> simp [nsProcEvent.decode, nsProcEvent.zero]

theorem handleProcEvent_ignored (data : List Byte)
    (h : (eventHeader data).What = PROC_EVENT_UID ∨ (eventHeader data).What = PROC_EVENT_GID
      ∨ (eventHeader data).What = PROC_EVENT_SID ∨ (eventHeader data).What = PROC_EVENT_PTRACE
      ∨ (eventHeader data).What = PROC_EVENT_COMM
      ∨ (eventHeader data).What = PROC_EVENT_COREDUMP) :
    handleProcEvent data = ⟨[], false⟩ := by
  unfold eventHeader at h
  rcases h with h | h | h | h | h | h <;>
    simp [handleProcEvent, h, PROC_EVENT_FORK, PROC_EVENT_NONE, PROC_EVENT_EXEC, PROC_EVENT_NS,
      PROC_EVENT_EXIT, PROC_EVENT_UID, PROC_EVENT_GID, PROC_EVENT_SID, PROC_EVENT_PTRACE,
      PROC_EVENT_COMM, PROC_EVENT_COREDUMP]

theorem handleProcEvent_unknown (data : List Byte)
    (h : (eventHeader data).What ∉ [PROC_EVENT_NONE, PROC_EVENT_FORK, PROC_EVENT_EXEC,
      PROC_EVENT_UID, PROC_EVENT_GID, PROC_EVENT_SID, PROC_EVENT_PTRACE, PROC_EVENT_COMM,
      PROC_EVENT_NS, PROC_EVENT_COREDUMP, PROC_EVENT_EXIT]) :
    handleProcEvent data = ⟨[⟨"???: what=%x\n", [Arg.num (eventHeader data).What]⟩], false⟩ := by
  simp only [List.mem_cons, List.mem_singleton, List.not_mem_nil, or_false, not_or] at h
  obtain ⟨h0, h1, h2, h3, h4, h5, h6, h7, h8, h9, h10⟩ := h
  unfold eventHeader at h0 h1 h2 h3 h4 h5 h6 h7 h8 h9 h10 ⊢
  simp only [handleProcEvent, if_neg h0, if_neg h1, if_neg h2, if_neg h3, if_neg h4, if_neg h5,
    if_neg h6, if_neg h7, if_neg h8, if_neg h9, if_neg h10]

theorem handleProcEvent_not_ns (data : List Byte) (h : (eventHeader data).What ≠ PROC_EVENT_NS) :
    (handleProcEvent data).panicked = false := by
  by_cases h0 : (eventHeader data).What = PROC_EVENT_NONE
  · rw [handleProcEvent_none data h0]
  by_cases h1 : (eventHeader data).What = PROC_EVENT_FORK
  · rw [handleProcEvent_fork data h1]
  by_cases h2 : (eventHeader data).What = PROC_EVENT_EXEC
  · rw [handleProcEvent_exec data h2]
  by_cases h3 : (eventHeader data).What = PROC_EVENT_EXIT
  · rw [handleProcEvent_exit data h3]
  by_cases h4 : (eventHeader data).What = PROC_EVENT_UID ∨ (eventHeader data).What = PROC_EVENT_GID
      ∨ (eventHeader data).What = PROC_EVENT_SID ∨ (eventHeader data).What = PROC_EVENT_PTRACE
      ∨ (eventHeader data).What = PROC_EVENT_COMM
      ∨ (eventHeader data).What = PROC_EVENT_COREDUMP
  · rw [handleProcEvent_ignored data h4]
  · rw [handleProcEvent_unknown data (by
      simp only [List.mem_cons, List.mem_singleton, List.not_mem_nil, or_false, not_or]
      simp only [not_or] at h4
      exact ⟨h0, h1, h2, h4.1, h4.2.1, h4.2.2.1, h4.2.2.2.1, h4.2.2.2.2.1, h, h4.2.2.2.2.2, h3⟩)]

/-- The decoder panics exactly on a namespace record whose count exceeds the
seven slots of the array. -/
theorem handleProcEvent_panicked_iff (data : List Byte) :
    (handleProcEvent data).panicked = true
      ↔ (eventHeader data).What = PROC_EVENT_NS
          ∧ 7 < (nsProcEvent.read (eventBuffer data)).1.Count := by
  by_cases hns : (eventHeader data).What = PROC_EVENT_NS
  · rw [handleProcEvent_ns data hns]
    have hl := nsProcEvent_read_items_length (eventBuffer data)
    by_cases hc : 7 < (nsProcEvent.read (eventBuffer data)).1.Count
    · simp only [hns, hc, and_self, iff_true]
      rw [nsItemsLoop_out_of_range _ _ 0 (by omega) (by omega)]
    · rw [nsItemsLoop_take _ (by omega)]
      simp [hc]
  · rw [handleProcEvent_not_ns data hns]
    simp [hns]

/-- The namespace case on a well-formed payload whose count exceeds the array:
the seven slots are reported, then indexing slot 7 panics. -/
theorem handleProcEvent_ns_payload_overflow (m : cnMsg) (cpu ts : Nat) (ev : nsProcEvent)
    (rest : List Byte) (hm : m.wf) (hcpu : fits32 cpu) (hts : fits64 ts) (hev : ev.wf)
    (hk : 7 < ev.Count) :
    handleProcEvent (recordPayload m ⟨PROC_EVENT_NS, cpu, ts⟩ (ev.encode ++ rest))
      = ⟨⟨"ns: pid=%v reason=%v count=%v\n",
            [Arg.num ev.ProcessTgid, Arg.str (reasonStr ev.Reason), Arg.num ev.Count]⟩
          :: ev.Items.map nsItemLine, true⟩ := by
  have hN : procEventHeader.wf ⟨PROC_EVENT_NS, cpu, ts⟩ :=
    ⟨(by decide : fits32 PROC_EVENT_NS), hcpu, hts⟩
  have hlen : ev.Items.length = 7 := hev.2.2.2.2.1
  rw [handleProcEvent_ns _ (by rw [eventHeader_recordPayload m _ _ hm hN]),
    eventBuffer_recordPayload m _ _ hm hN, nsProcEvent_read_encode ev hev,
    nsItemsLoop_out_of_range ev ev.Count 0 (by omega) (by omega), List.drop_zero]

/-! ### Truncated payloads -/

theorem at8_take_drop (data : List Byte) (n k i : Nat) (h : k + i < n) :
    at8 ((data.take n).drop k) i = at8 data (k + i) := by
  simp [at8, List.getD_eq_getElem?_getD, List.getElem?_drop, List.getElem?_take, h]

theorem cnMsg_read_short (data : List Byte) (h : data.length < 20) :
    cnMsg.read data = (cnMsg.zero, []) := by
  simp [cnMsg.read, cnMsg.size, readFull_short 20 data h]

theorem cnMsg_read_long (data : List Byte) (h : 20 ≤ data.length) :
    cnMsg.read data = (cnMsg.decode (data.take 20), data.drop 20) := by
  simp [cnMsg.read, cnMsg.size, readFull, h]

theorem procEventHeader_read_short (buf : List Byte) (h : buf.length < 16) :
    procEventHeader.read buf = (procEventHeader.zero, []) := by
  simp [procEventHeader.read, procEventHeader.size, readFull_short 16 buf h]

/-! ### `subscribe` -/

theorem NlMsghdr_length_encode (h : NlMsghdr) : h.encode.length = 16 := by
  simp [NlMsghdr.encode, byteOrder.PutUint32, byteOrder.PutUint16]

theorem subscribe_counter (seq getpid op : Nat) :
    (subscribe seq getpid op).1 = (seq + 1) % 4294967296 := rfl

theorem subscribe_header_seq (seq getpid op : Nat) :
    byteOrder.Uint32 ((subscribe seq getpid op).2.drop 8) = (seq + 1) % 4294967296 := by
  simp [subscribe, netlinkProcMessage.encode, NlMsghdr.encode, byteOrder.PutUint32,
    byteOrder.PutUint16, byteOrder.Uint32, at8, toByte]
  omega

theorem subscribe_envelope_seq (seq getpid op : Nat) :
    byteOrder.Uint32 ((subscribe seq getpid op).2.drop 24) = 0 := by
  simp [subscribe, netlinkProcMessage.encode, NlMsghdr.encode, cnMsg.encode, byteOrder.PutUint32,
    byteOrder.PutUint16, byteOrder.Uint32, at8, toByte]

/-! ### `ParseNetlinkMessage` and the dispatch loop -/

theorem parseLoop_fuel (f1 : Nat) : ∀ (f2 : Nat) (b : List Byte), b.length ≤ f1 → b.length ≤ f2 →
    parseLoop f1 b = parseLoop f2 b := by
  induction f1 with
  | zero =>
    intro f2 b h1 h2
    have hb : b = [] := List.length_eq_zero.mp (by omega)
    subst hb
    cases f2 <;> simp [parseLoop, NLMSG_HDRLEN]
  | succ f1 ih =>
    intro f2 b h1 h2
    cases f2 with
    | zero =>
      have hb : b = [] := List.length_eq_zero.mp (by omega)
      subst hb
      simp [parseLoop, NLMSG_HDRLEN]
    | succ f2 =>
      simp only [parseLoop]
      split_ifs with h16
      · cases hh : netlinkMessageHeaderAndData b with
        | none => rfl
        | some r =>
          obtain ⟨h, dbuf, dlen⟩ := r
          have hd : 1 ≤ dlen := by
            unfold netlinkMessageHeaderAndData at hh
            dsimp only at hh
            split_ifs at hh with hc
            simp only [Option.some.injEq, Prod.mk.injEq] at hh
            obtain ⟨h1, _, h3⟩ := hh
            subst h3
            simp only [not_or, not_lt] at hc
            simp only [nlmAlignOf, NLMSG_ALIGNTO, NLMSG_HDRLEN] at hc ⊢
            omega
          simp only []
          rw [ih f2 (b.drop dlen) (by simp only [List.length_drop]; omega)
            (by simp only [List.length_drop]; omega)]
      · rfl

theorem rangeMsgs_no_panic (msgs : List NetlinkMessage)
    (h : ∀ m ∈ msgs, m.Header.Type_ = NLMSG_DONE → (handleProcEvent m.Data).panicked = false) :
    rangeMsgs msgs
      = ⟨(msgs.filter (fun m => decide (m.Header.Type_ = NLMSG_DONE))).map (fun m => m.Data),
         ((msgs.filter (fun m => decide (m.Header.Type_ = NLMSG_DONE))).map
            (fun m => (handleProcEvent m.Data).out)).flatten, false⟩ := by
  induction msgs with
  | nil => rfl
  | cons m ms ih =>
    have ih2 := ih (fun x hx => h x (List.mem_cons_of_mem m hx))
    by_cases hd : m.Header.Type_ = NLMSG_DONE
    · have hp := h m (List.mem_cons_self m ms) hd
      simp [rangeMsgs, hd, hp, ih2]
    · simp [rangeMsgs, hd, ih2]

theorem rangeMsgs_handed_initial_segment (msgs : List NetlinkMessage) :
    (rangeMsgs msgs).handed
      <+: (msgs.filter (fun m => decide (m.Header.Type_ = NLMSG_DONE))).map (fun m => m.Data) := by
  induction msgs with
  | nil => simp [rangeMsgs]
  | cons m ms ih =>
    by_cases hd : m.Header.Type_ = NLMSG_DONE
    · by_cases hp : (handleProcEvent m.Data).panicked = true
      · simp [rangeMsgs, hd, hp, List.prefix_cons_inj]
      · simp only [Bool.not_eq_true] at hp
        simp [rangeMsgs, hd, hp, List.prefix_cons_inj, ih]
    · simp [rangeMsgs, hd, ih]

/-! ### Framed records -/

theorem NlMsghdr_decode_encode (h : NlMsghdr) (hw : h.wf) (rest : List Byte) :
    NlMsghdr.decode (h.encode ++ rest) = h := by
  obtain ⟨a, b, c, d, e⟩ := h
  simp only [NlMsghdr.wf, fits32, fits16] at hw
  simp [NlMsghdr.decode, NlMsghdr.encode, byteOrder.Uint32, byteOrder.PutUint32, byteOrder.Uint16,
    byteOrder.PutUint16, at8, toByte]
  refine ⟨?_, ?_, ?_, ?_, ?_⟩ <;> omega

theorem ParseNetlinkMessage_short (b : List Byte) (h : b.length < NLMSG_HDRLEN) :
    ParseNetlinkMessage b = some [] := by
  unfold ParseNetlinkMessage
  cases hb : b.length with
  | zero => rfl
  | succ n =>
    have : ¬ NLMSG_HDRLEN ≤ b.length := by omega
    simp only [parseLoop, this, if_false]

theorem nlmAlignOf_ge (n : Nat) : n ≤ nlmAlignOf n := by
  simp only [nlmAlignOf, NLMSG_ALIGNTO]; omega

/-- One iteration of the parse loop on a record that is framed with its padding. -/
theorem ParseNetlinkMessage_record (h : NlMsghdr) (p pad rest : List Byte) (hw : h.wf)
    (hl : h.Len = NLMSG_HDRLEN + p.length) (hp : pad.length = nlmAlignOf h.Len - h.Len) :
    ParseNetlinkMessage (h.encode ++ (p ++ (pad ++ rest)))
      = (ParseNetlinkMessage rest).map (fun msgs => ⟨h, p⟩ :: msgs) := by
  have hge := nlmAlignOf_ge h.Len
  have hlen : (h.encode ++ (p ++ (pad ++ rest))).length = nlmAlignOf h.Len + rest.length := by
    simp only [List.length_append, NlMsghdr_length_encode, hp]
    simp only [NLMSG_HDRLEN] at hl
    omega
  have hhd : netlinkMessageHeaderAndData (h.encode ++ (p ++ (pad ++ rest)))
      = some (h, p ++ (pad ++ rest), nlmAlignOf h.Len) := by
    unfold netlinkMessageHeaderAndData
    simp only [NlMsghdr_decode_encode h hw, hlen]
    have hc : ¬ (h.Len < NLMSG_HDRLEN ∨ nlmAlignOf h.Len > nlmAlignOf h.Len + rest.length) := by
      omega
    rw [if_neg hc]
    simp only [NLMSG_HDRLEN]
    rw [List.drop_left' (NlMsghdr_length_encode h)]
  have hdrop : List.drop (nlmAlignOf h.Len) (h.encode ++ (p ++ (pad ++ rest))) = rest := by
    rw [← List.append_assoc, ← List.append_assoc]
    apply List.drop_left'
    simp only [List.length_append, NlMsghdr_length_encode, hp]
    simp only [NLMSG_HDRLEN] at hl
    omega
  have htake : List.take (h.Len - NLMSG_HDRLEN) (p ++ (pad ++ rest)) = p := by
    apply List.take_left'
    omega
  unfold ParseNetlinkMessage
  rw [hlen]
  have h16 : NLMSG_HDRLEN ≤ nlmAlignOf h.Len + rest.length := by omega
  obtain ⟨k, hk⟩ : ∃ k, nlmAlignOf h.Len + rest.length = k + 1 :=
    ⟨nlmAlignOf h.Len + rest.length - 1, by simp only [NLMSG_HDRLEN] at h16; omega⟩
  rw [hk]
  simp only [parseLoop, hlen, h16, if_true, hhd, hdrop, htake]
  rw [parseLoop_fuel k rest.length rest (by simp only [NLMSG_HDRLEN] at hl; omega) (le_refl _)]
  cases parseLoop rest.length rest <;> rfl

/-! ### `handleEvent`, one case of the `switch` at a time -/

theorem handleEvent_fork (data : List Byte) (h : (eventHeader data).What = PROC_EVENT_FORK) :
    handleEvent data
      = ⟨[⟨"fork: ppid=%v pid=%v\n",
            [Arg.num (forkProcEvent.read (eventBuffer data)).1.ParentTgid,
             Arg.num (forkProcEvent.read (eventBuffer data)).1.ChildTgid]⟩], false⟩ := by
  unfold eventHeader at h
  simp [handleEvent, h, eventBuffer]

theorem handleEvent_exec (data : List Byte) (h : (eventHeader data).What = PROC_EVENT_EXEC) :
    handleEvent data
      = ⟨[⟨"exec: pid=%v\n", [Arg.num (execProcEvent.read (eventBuffer data)).1.ProcessTgid]⟩],
          false⟩ := by
  unfold eventHeader at h
  simp [handleEvent, h, eventBuffer, PROC_EVENT_FORK, PROC_EVENT_EXEC]

theorem handleEvent_nm (data : List Byte) (h : (eventHeader data).What = PROC_EVENT_NM) :
    handleEvent data
      = ⟨[⟨"nm: pid=%v type=%v reason=%v old_inum=%v inum=%v\n",
            [Arg.num (nmProcEvent.read (eventBuffer data)).1.ProcessTgid,
             Arg.str (nmTypeStr (nmProcEvent.read (eventBuffer data)).1.NmType),
             Arg.num (nmProcEvent.read (eventBuffer data)).1.NmReason,
             Arg.num (nmProcEvent.read (eventBuffer data)).1.OldInum,
             Arg.num (nmProcEvent.read (eventBuffer data)).1.Inum]⟩], false⟩ := by
  unfold eventHeader at h
  simp [handleEvent, h, eventBuffer, PROC_EVENT_FORK, PROC_EVENT_EXEC, PROC_EVENT_NM]

theorem handleEvent_exit (data : List Byte) (h : (eventHeader data).What = PROC_EVENT_EXIT) :
    handleEvent data
      = ⟨[⟨"exit: pid=%v\n", [Arg.num (exitProcEvent.read (eventBuffer data)).1.ProcessTgid]⟩],
          false⟩ := by
  unfold eventHeader at h
  simp [handleEvent, h, eventBuffer, PROC_EVENT_FORK, PROC_EVENT_EXEC, PROC_EVENT_NM,
    PROC_EVENT_EXIT]

theorem handleEvent_other (data : List Byte)
    (h : (eventHeader data).What ∉ [PROC_EVENT_FORK, PROC_EVENT_EXEC, PROC_EVENT_NM,
      PROC_EVENT_EXIT]) :
    handleEvent data = ⟨[], false⟩ := by
  simp only [List.mem_cons, List.mem_singleton, List.not_mem_nil, or_false, not_or] at h
  obtain ⟨h0, h1, h2, h3⟩ := h
  unfold eventHeader at h0 h1 h2 h3
  simp only [handleEvent, if_neg h0, if_neg h1, if_neg h2, if_neg h3]

/-! ### The legacy namespace struct -/

theorem nmProcEvent_length_encode (e : nmProcEvent) : e.encode.length = 32 := by
  simp [nmProcEvent.encode, byteOrder.PutUint32, byteOrder.PutUint64]

theorem nmProcEvent_decode_encode (e : nmProcEvent) (h : e.wf) :
    nmProcEvent.decode e.encode = e := by
  obtain ⟨a, b, c, d, o, n⟩ := e
  simp only [nmProcEvent.wf, fits32, fits64] at h
  simp [nmProcEvent.decode, nmProcEvent.encode, byteOrder.Uint32, byteOrder.PutUint32,
    byteOrder.Uint64, byteOrder.PutUint64, at8, toByte]
  refine ⟨?_, ?_, ?_, ?_, ?_, ?_⟩ <;> omega

theorem nmProcEvent_read_encode (e : nmProcEvent) (h : e.wf) (rest : List Byte) :
    nmProcEvent.read (e.encode ++ rest) = (e, rest) := by
  simp [nmProcEvent.read, nmProcEvent.size,
    readFull_append _ _ _ (nmProcEvent_length_encode e), nmProcEvent_decode_encode e h]

/-! ### Event structs that are cut short -/

theorem procEventHeader_read_long (buf : List Byte) (h : 16 ≤ buf.length) :
    procEventHeader.read buf = (procEventHeader.decode (buf.take 16), buf.drop 16) := by
  simp [procEventHeader.read, procEventHeader.size, readFull, h]

theorem eventBuffer_length (data : List Byte) : (eventBuffer data).length = data.length - 36 := by
  unfold eventBuffer
  by_cases h20 : 20 ≤ data.length
  · rw [cnMsg_read_long data h20]
    by_cases h36 : 36 ≤ data.length
    · rw [procEventHeader_read_long _ (by simp only [List.length_drop]; omega)]
      simp only [List.length_drop]; omega
    · rw [procEventHeader_read_short _ (by simp only [List.length_drop]; omega)]
      simp only [List.length_nil]; omega
  · rw [cnMsg_read_short data (by omega), procEventHeader_read_short _ (by simp)]
    simp only [List.length_nil]; omega

theorem forkProcEvent_read_short (buf : List Byte) (h : buf.length < 16) :
    forkProcEvent.read buf = (forkProcEvent.zero, []) := by
  simp [forkProcEvent.read, forkProcEvent.size, readFull_short 16 buf h]

theorem execProcEvent_read_short (buf : List Byte) (h : buf.length < 8) :
    execProcEvent.read buf = (execProcEvent.zero, []) := by
  simp [execProcEvent.read, execProcEvent.size, readFull_short 8 buf h]

theorem exitProcEvent_read_short (buf : List Byte) (h : buf.length < 16) :
    exitProcEvent.read buf = (exitProcEvent.zero, []) := by
  simp [exitProcEvent.read, exitProcEvent.size, readFull_short 16 buf h]

theorem nsProcEvent_read_short (buf : List Byte) (h : buf.length < 184) :
    nsProcEvent.read buf = (nsProcEvent.zero, []) := by
  simp [nsProcEvent.read, nsProcEvent.size, nsProcItem.size, readFull_short 184 buf h]

theorem cnMsg_decode_encode_append (m : cnMsg) (h : m.wf) (rest : List Byte) :
    cnMsg.decode (m.encode ++ rest) = m := by
  obtain ⟨⟨a, b⟩, c, d, e, f⟩ := m
  simp only [cnMsg.wf, fits32, fits16] at h
  simp [cnMsg.decode, cnMsg.encode, byteOrder.Uint32, byteOrder.PutUint32, byteOrder.Uint16,
    byteOrder.PutUint16, at8, toByte]
  refine ⟨⟨?_, ?_⟩, ?_, ?_, ?_, ?_⟩ <;> omega

/-! # The properties of the specification -/

/-- C1: round trip for fork, exec and exit.  For every record payload made of
the encoding of a well-formed envelope, an event header with tag
`PROC_EVENT_FORK`, `PROC_EVENT_EXEC` or `PROC_EVENT_EXIT`, and the little-endian
encoding of the matching event struct (followed by any further bytes),
`handleProcEvent` decodes exactly the struct that was encoded and makes exactly
one `Printf` call, whose operands are the encoded tgid(s), without a panic. -/
theorem C1_round_trip_fork_exec_exit (m : cnMsg) (cpu ts : Nat) (f : forkProcEvent)
    (x : execProcEvent) (q : exitProcEvent) (rest : List Byte)
    (hm : m.wf) (hcpu : fits32 cpu) (hts : fits64 ts) (hf : f.wf) (hx : x.wf) (hq : q.wf) :
    ((forkProcEvent.read
          (eventBuffer (recordPayload m ⟨PROC_EVENT_FORK, cpu, ts⟩ (f.encode ++ rest)))).1 = f
      ∧ handleProcEvent (recordPayload m ⟨PROC_EVENT_FORK, cpu, ts⟩ (f.encode ++ rest))
          = ⟨[⟨"fork: ppid=%v pid=%v\n", [Arg.num f.ParentTgid, Arg.num f.ChildTgid]⟩], false⟩)
    ∧ ((execProcEvent.read
          (eventBuffer (recordPayload m ⟨PROC_EVENT_EXEC, cpu, ts⟩ (x.encode ++ rest)))).1 = x
      ∧ handleProcEvent (recordPayload m ⟨PROC_EVENT_EXEC, cpu, ts⟩ (x.encode ++ rest))
          = ⟨[⟨"exec: pid=%v\n", [Arg.num x.ProcessTgid]⟩], false⟩)
    ∧ ((exitProcEvent.read
          (eventBuffer (recordPayload m ⟨PROC_EVENT_EXIT, cpu, ts⟩ (q.encode ++ rest)))).1 = q
      ∧ handleProcEvent (recordPayload m ⟨PROC_EVENT_EXIT, cpu, ts⟩ (q.encode ++ rest))
          = ⟨[⟨"exit: pid=%v\n", [Arg.num q.ProcessTgid]⟩], false⟩) := by
  have hF : procEventHeader.wf ⟨PROC_EVENT_FORK, cpu, ts⟩ :=
    ⟨(by decide : fits32 PROC_EVENT_FORK), hcpu, hts⟩
  have hX : procEventHeader.wf ⟨PROC_EVENT_EXEC, cpu, ts⟩ :=
    ⟨(by decide : fits32 PROC_EVENT_EXEC), hcpu, hts⟩
  have hQ : procEventHeader.wf ⟨PROC_EVENT_EXIT, cpu, ts⟩ :=
    ⟨(by decide : fits32 PROC_EVENT_EXIT), hcpu, hts⟩
  refine ⟨⟨?_, ?_⟩, ⟨?_, ?_⟩, ⟨?_, ?_⟩⟩
  · rw [eventBuffer_recordPayload m _ _ hm hF, forkProcEvent_read_encode f hf]
  · rw [handleProcEvent_fork _ (by rw [eventHeader_recordPayload m _ _ hm hF]),
      eventBuffer_recordPayload m _ _ hm hF, forkProcEvent_read_encode f hf]
  · rw [eventBuffer_recordPayload m _ _ hm hX, execProcEvent_read_encode x hx]
  · rw [handleProcEvent_exec _ (by rw [eventHeader_recordPayload m _ _ hm hX]),
      eventBuffer_recordPayload m _ _ hm hX, execProcEvent_read_encode x hx]
  · rw [eventBuffer_recordPayload m _ _ hm hQ, exitProcEvent_read_encode q hq]
  · rw [handleProcEvent_exit _ (by rw [eventHeader_recordPayload m _ _ hm hQ]),
      eventBuffer_recordPayload m _ _ hm hQ, exitProcEvent_read_encode q hq]

/-- Witness of C1: the payload with exit struct pid 100, tgid 100, code 0,
signal 0 (and a fork 7/7 -> 8/8, an exec of 9/9) is decoded to the same struct
and is reported as `exit: pid=100`. -/
theorem C1_round_trip_witness :
    (handleProcEvent (recordPayload ⟨⟨1, 1⟩, 0, 0, 40, 0⟩ ⟨PROC_EVENT_EXIT, 2, 12345⟩
        ((exitProcEvent.mk 100 100 0 0).encode ++ []))).out.map Printf.render
      = ["exit: pid=100\n"]
    ∧ (exitProcEvent.read (eventBuffer (recordPayload ⟨⟨1, 1⟩, 0, 0, 40, 0⟩
        ⟨PROC_EVENT_EXIT, 2, 12345⟩ ((exitProcEvent.mk 100 100 0 0).encode ++ [])))).1
      = ⟨100, 100, 0, 0⟩
    ∧ (handleProcEvent (recordPayload ⟨⟨1, 1⟩, 0, 0, 40, 0⟩ ⟨PROC_EVENT_FORK, 2, 12345⟩
        ((forkProcEvent.mk 7 7 8 8).encode ++ []))).out.map Printf.render
      = ["fork: ppid=7 pid=8\n"] := by
  have h := C1_round_trip_fork_exec_exit ⟨⟨1, 1⟩, 0, 0, 40, 0⟩ 2 12345 ⟨7, 7, 8, 8⟩ ⟨9, 9⟩
    ⟨100, 100, 0, 0⟩ [] (by decide) (by decide) (by decide) (by decide) (by decide) (by decide)
  refine ⟨?_, h.2.2.1, ?_⟩
  · rw [h.2.2.2]; decide
  · rw [h.1.2]; decide


/-- C2: the multi-item namespace form.  For every record payload made of a
well-formed envelope, an event header with tag `PROC_EVENT_NS` and the full
184-byte encoding of an `nsProcEvent` whose count `k` is at most 7 (followed by
any further bytes), `handleProcEvent` decodes the struct that was encoded and,
after the line with tgid, reason and count, makes exactly `k` item calls, the
`i`-th reporting type, old inode and new inode of the `i`-th slot, in slot order
and without a panic; a second such payload that has the same tgid, reason, count
and first `k` slots gives the same result whatever its other slots hold. -/
theorem C2_ns_multi_item_form (m : cnMsg) (cpu ts : Nat) (ev : nsProcEvent) (rest : List Byte)
    (hm : m.wf) (hcpu : fits32 cpu) (hts : fits64 ts) (hev : ev.wf) (hk : ev.Count ≤ 7) :
    (nsProcEvent.read
        (eventBuffer (recordPayload m ⟨PROC_EVENT_NS, cpu, ts⟩ (ev.encode ++ rest)))).1 = ev
    ∧ handleProcEvent (recordPayload m ⟨PROC_EVENT_NS, cpu, ts⟩ (ev.encode ++ rest))
        = ⟨⟨"ns: pid=%v reason=%v count=%v\n",
              [Arg.num ev.ProcessTgid, Arg.str (reasonStr ev.Reason), Arg.num ev.Count]⟩
            :: (ev.Items.take ev.Count).map nsItemLine, false⟩
    ∧ ((ev.Items.take ev.Count).map nsItemLine).length = ev.Count
    ∧ (∀ (i : Nat) (hl : i < ev.Items.length), i < ev.Count →
        ((ev.Items.take ev.Count).map nsItemLine)[i]?
          = some ⟨"    type=%s %v -> %v\n",
              [Arg.str (typeStr (ev.Items.get ⟨i, hl⟩).ItemType),
               Arg.num (ev.Items.get ⟨i, hl⟩).OldInum, Arg.num (ev.Items.get ⟨i, hl⟩).Inum]⟩)
    ∧ (∀ (ev2 : nsProcEvent) (rest2 : List Byte), ev2.wf →
        ev2.ProcessTgid = ev.ProcessTgid → ev2.Reason = ev.Reason → ev2.Count = ev.Count →
        ev2.Items.take ev.Count = ev.Items.take ev.Count →
        handleProcEvent (recordPayload m ⟨PROC_EVENT_NS, cpu, ts⟩ (ev2.encode ++ rest2))
          = handleProcEvent (recordPayload m ⟨PROC_EVENT_NS, cpu, ts⟩ (ev.encode ++ rest))) := by
  have hN : procEventHeader.wf ⟨PROC_EVENT_NS, cpu, ts⟩ :=
    ⟨(by decide : fits32 PROC_EVENT_NS), hcpu, hts⟩
  have hlen : ev.Items.length = 7 := hev.2.2.2.2.1
  refine ⟨?_, handleProcEvent_ns_payload m cpu ts ev rest hm hcpu hts hev hk, ?_, ?_, ?_⟩
  · rw [eventBuffer_recordPayload m _ _ hm hN, nsProcEvent_read_encode ev hev]
  · simp only [List.length_map, List.length_take]; omega
  · intro i hl hi
    simp [List.getElem?_take, hi, List.getElem?_eq_getElem hl, nsItemLine]
  · intro ev2 rest2 hev2 h1 h2 h3 h4
    rw [handleProcEvent_ns_payload m cpu ts ev2 rest2 hm hcpu hts hev2 (by rw [h3]; exact hk),
      handleProcEvent_ns_payload m cpu ts ev rest hm hcpu hts hev hk, h1, h2, h3, h4]

/-- Witness of C2: with count 3 and seven populated slots exactly the first three
slots are reported; with reason 2 and the one item (CLONE_NEWPID, 111, 222) the
output is reason setns and the single item pid 111 -> 222. -/
theorem C2_ns_multi_item_witness :
    (handleProcEvent (recordPayload ⟨⟨1, 1⟩, 0, 0, 208, 0⟩ ⟨PROC_EVENT_NS, 0, 99⟩
        ((nsProcEvent.mk 41 42 1 3
          [⟨CLONE_NEWPID, 0, 11, 12⟩, ⟨CLONE_NEWNS, 0, 21, 22⟩, ⟨CLONE_NEWNET, 0, 31, 32⟩,
           ⟨CLONE_NEWUTS, 0, 41, 42⟩, ⟨CLONE_NEWIPC, 0, 51, 52⟩, ⟨CLONE_NEWUSER, 0, 61, 62⟩,
           ⟨5, 0, 71, 72⟩]).encode ++ []))).out.map Printf.render
      = ["ns: pid=42 reason=clone count=3\n", "    type=pid  11 -> 12\n",
         "    type=mnt  21 -> 22\n", "    type=net  31 -> 32\n"]
    ∧ (handleProcEvent (recordPayload ⟨⟨1, 1⟩, 0, 0, 208, 0⟩ ⟨PROC_EVENT_NS, 0, 99⟩
        ((nsProcEvent.mk 41 42 2 1
          [⟨CLONE_NEWPID, 0, 111, 222⟩, ⟨0, 0, 0, 0⟩, ⟨0, 0, 0, 0⟩, ⟨0, 0, 0, 0⟩, ⟨0, 0, 0, 0⟩,
           ⟨0, 0, 0, 0⟩, ⟨0, 0, 0, 0⟩]).encode ++ []))).out.map Printf.render
      = ["ns: pid=42 reason=setns count=1\n", "    type=pid  111 -> 222\n"] := by
  constructor
  · rw [(C2_ns_multi_item_form ⟨⟨1, 1⟩, 0, 0, 208, 0⟩ 0 99 _ [] (by decide) (by decide)
      (by decide) (by decide) (by decide)).2.1]
    decide
  · rw [(C2_ns_multi_item_form ⟨⟨1, 1⟩, 0, 0, 208, 0⟩ 0 99 _ [] (by decide) (by decide)
      (by decide) (by decide) (by decide)).2.1]
    decide


/-- C3 (the code at the failing input): a namespace record whose count field is 8
makes `handleProcEvent` report the seven slots and then index `event.Items[7]`,
which is a run-time panic, not a skipped malformed record. -/
theorem C3_count_above_capacity_panics :
    handleProcEvent (recordPayload ⟨⟨1, 1⟩, 0, 0, 208, 0⟩ ⟨PROC_EVENT_NS, 0, 99⟩
        ((nsProcEvent.mk 41 42 1 8
          [⟨CLONE_NEWPID, 0, 11, 12⟩, ⟨CLONE_NEWNS, 0, 21, 22⟩, ⟨CLONE_NEWNET, 0, 31, 32⟩,
           ⟨CLONE_NEWUTS, 0, 41, 42⟩, ⟨CLONE_NEWIPC, 0, 51, 52⟩, ⟨CLONE_NEWUSER, 0, 61, 62⟩,
           ⟨5, 0, 71, 72⟩]).encode ++ []))
      = ⟨[⟨"ns: pid=%v reason=%v count=%v\n", [Arg.num 42, Arg.str "clone", Arg.num 8]⟩,
          ⟨"    type=%s %v -> %v\n", [Arg.str "pid ", Arg.num 11, Arg.num 12]⟩,
          ⟨"    type=%s %v -> %v\n", [Arg.str "mnt ", Arg.num 21, Arg.num 22]⟩,
          ⟨"    type=%s %v -> %v\n", [Arg.str "net ", Arg.num 31, Arg.num 32]⟩,
          ⟨"    type=%s %v -> %v\n", [Arg.str "uts ", Arg.num 41, Arg.num 42]⟩,
          ⟨"    type=%s %v -> %v\n", [Arg.str "ipc ", Arg.num 51, Arg.num 52]⟩,
          ⟨"    type=%s %v -> %v\n", [Arg.str "user", Arg.num 61, Arg.num 62]⟩,
          ⟨"    type=%s %v -> %v\n", [Arg.str "unknown", Arg.num 71, Arg.num 72]⟩], true⟩ := by
  rw [handleProcEvent_ns_payload_overflow ⟨⟨1, 1⟩, 0, 0, 208, 0⟩ 0 99 _ [] (by decide)
    (by decide) (by decide) (by decide) (by decide)]
  decide

/-- C4: unknown tags degrade to unrecognized.  For every byte sequence whose
decoded event tag is none of the eleven known values, `handleProcEvent` does not
panic and makes exactly one call, `???: what=%x`, whose operand is that exact
tag. -/
theorem C4_unknown_tag_unrecognized (data : List Byte)
    (h : (eventHeader data).What ∉ [PROC_EVENT_NONE, PROC_EVENT_FORK, PROC_EVENT_EXEC,
      PROC_EVENT_UID, PROC_EVENT_GID, PROC_EVENT_SID, PROC_EVENT_PTRACE, PROC_EVENT_COMM,
      PROC_EVENT_NS, PROC_EVENT_COREDUMP, PROC_EVENT_EXIT]) :
    handleProcEvent data = ⟨[⟨"???: what=%x\n", [Arg.num (eventHeader data).What]⟩], false⟩ :=
  handleProcEvent_unknown data h

/-- Witness of C4: the unallocated bit 0x800 and the two-bit value 0x3 are both
reported as unrecognized with their exact value. -/
theorem C4_unknown_tag_witness :
    (handleProcEvent (recordPayload ⟨⟨1, 1⟩, 0, 0, 0, 0⟩ ⟨0x800, 0, 0⟩ [1, 2, 3])).out.map
        Printf.render = ["???: what=800\n"]
    ∧ (handleProcEvent (recordPayload ⟨⟨1, 1⟩, 0, 0, 0, 0⟩ ⟨0x3, 0, 0⟩ [1, 2, 3])).out.map
        Printf.render = ["???: what=3\n"] := by
  constructor
  · rw [C4_unknown_tag_unrecognized _ (by decide)]; decide
  · rw [C4_unknown_tag_unrecognized _ (by decide)]; decide

/-- C5 as stated fails: a 28-byte payload (a complete envelope whose flags field
is 5, then the first 8 bytes of an event header) is shorter than 36 bytes and yet
`handleProcEvent` emits a line for it. -/
theorem C5_truncated_record_counterexample :
    ([1, 0, 0, 0, 1, 0, 0, 0, 0, 0, 0, 0, 0, 0, 0, 0, 40, 0, 5, 0,
      1, 0, 0, 0, 0, 0, 0, 0] : List Byte).length < 36
    ∧ (handleProcEvent [1, 0, 0, 0, 1, 0, 0, 0, 0, 0, 0, 0, 0, 0, 0, 0, 40, 0, 5, 0,
        1, 0, 0, 0, 0, 0, 0, 0]).out ≠ [] := by
  decide

/-- C5 as amended: for every payload of fewer than 36 bytes `handleProcEvent`
does not panic and reads nothing beyond the payload (the failed read leaves the
buffer empty and the event header zero), so the tag is 0 and exactly one line
`none: flags=%v` is emitted, whose operand is the flags field of the envelope
when all 20 envelope bytes were present and 0 otherwise. -/
theorem C5_truncated_record_amended (data : List Byte) (h : data.length < 36) :
    eventBuffer data = []
    ∧ eventHeader data = procEventHeader.zero
    ∧ handleProcEvent data
        = ⟨[⟨"none: flags=%v\n",
              [Arg.num (if 20 ≤ data.length then at8 data 18 + 256 * at8 data 19 else 0)]⟩],
            false⟩ := by
  have key : procEventHeader.read (cnMsg.read data).2 = (procEventHeader.zero, [])
      ∧ (cnMsg.read data).1.Flags
          = (if 20 ≤ data.length then at8 data 18 + 256 * at8 data 19 else 0) := by
    by_cases h20 : 20 ≤ data.length
    · rw [cnMsg_read_long data h20]
      refine ⟨procEventHeader_read_short _ (by simp only [List.length_drop]; omega), ?_⟩
      simp only [cnMsg.decode, byteOrder.Uint16, if_pos h20]
      rw [at8_take_drop data 20 18 0 (by omega), at8_take_drop data 20 18 1 (by omega)]
    · rw [cnMsg_read_short data (by omega)]
      exact ⟨procEventHeader_read_short _ (by simp), by simp [cnMsg.zero, h20]⟩
  have hH : eventHeader data = procEventHeader.zero := by
    simp only [eventHeader, key.1]
  refine ⟨by simp only [eventBuffer, key.1], hH, ?_⟩
  rw [handleProcEvent_none data (by rw [hH]; rfl), key.2]

/-- Witness of C5 as amended: the 28-byte payload above gives `none: flags=5`. -/
theorem C5_truncated_record_witness :
    (handleProcEvent [1, 0, 0, 0, 1, 0, 0, 0, 0, 0, 0, 0, 0, 0, 0, 0, 40, 0, 5, 0,
        1, 0, 0, 0, 0, 0, 0, 0]).out.map Printf.render = ["none: flags=5\n"]
    ∧ (handleProcEvent []).out.map Printf.render = ["none: flags=0\n"] := by
  constructor
  · rw [(C5_truncated_record_amended _ (by decide)).2.2]; decide
  · rw [(C5_truncated_record_amended [] (by decide)).2.2]; decide


/-- C6: the layout of a subscription request.  For every counter value, process
id and action code `op` that fits 32 bits, the buffer `subscribe` builds is
exactly 40 bytes long, is a 16-byte transport header followed by a 20-byte
envelope and the 4 bytes of `op`, its header length field is 40, which is the
length of the buffer, and its last 4 bytes are the little-endian encoding of
`op` (they decode to `op`). -/
theorem C6_subscription_request_layout (seq getpid op : Nat) (hop : fits32 op) :
    (subscribe seq getpid op).2.length = 40
    ∧ (∃ (hdr : NlMsghdr) (env : cnMsg),
        (subscribe seq getpid op).2 = hdr.encode ++ env.encode ++ byteOrder.PutUint32 op
        ∧ hdr.encode.length = 16 ∧ env.encode.length = 20 ∧ (byteOrder.PutUint32 op).length = 4)
    ∧ byteOrder.Uint32 (subscribe seq getpid op).2 = 40
    ∧ (NlMsghdr.decode (subscribe seq getpid op).2).Len = (subscribe seq getpid op).2.length
    ∧ (subscribe seq getpid op).2.drop 36 = byteOrder.PutUint32 op
    ∧ byteOrder.Uint32 ((subscribe seq getpid op).2.drop 36) = op := by
  have hlen : (subscribe seq getpid op).2.length = 40 := by
    simp [subscribe, netlinkProcMessage.encode, NlMsghdr_length_encode, cnMsg_length_encode,
      byteOrder.PutUint32]
  have h40 : byteOrder.Uint32 (subscribe seq getpid op).2 = 40 := by
    simp [subscribe, netlinkProcMessage.encode, NlMsghdr.encode, byteOrder.PutUint32,
      byteOrder.Uint32, at8, toByte, NLMSG_HDRLEN, cnMsg.size]
    rfl
  have hdrop : (subscribe seq getpid op).2.drop 36 = byteOrder.PutUint32 op := by
    simp only [subscribe, netlinkProcMessage.encode]
    exact List.drop_left' (by simp [NlMsghdr_length_encode, cnMsg_length_encode])
  refine ⟨hlen, ⟨_, _, rfl, NlMsghdr_length_encode _, cnMsg_length_encode _, rfl⟩, h40, ?_,
    hdrop, ?_⟩
  · rw [hlen]; exact h40
  · rw [hdrop]
    have := Uint32_PutUint32 op hop []
    simpa using this

/-- Witness of C6: the listen request (action code 1) of process 1234 at
counter 0, byte for byte. -/
theorem C6_subscription_request_witness :
    (subscribe 0 1234 PROC_CN_MCAST_LISTEN).2.length = 40
    ∧ byteOrder.Uint32 ((subscribe 0 1234 PROC_CN_MCAST_LISTEN).2.drop 36) = 1
    ∧ (subscribe 0 1234 PROC_CN_MCAST_LISTEN).2
        = [40, 0, 0, 0, 3, 0, 0, 0, 1, 0, 0, 0, 210, 4, 0, 0,
           1, 0, 0, 0, 1, 0, 0, 0, 0, 0, 0, 0, 0, 0, 0, 0, 4, 0, 0, 0,
           1, 0, 0, 0] := by
  have h := C6_subscription_request_layout 0 1234 PROC_CN_MCAST_LISTEN (by decide)
  exact ⟨h.1, h.2.2.2.2.2, by decide⟩

/-- C7 as stated fails: at the counter value 2^32 - 2 the first request carries
the sequence number 2^32 - 1 and the next one wraps around to 0. -/
theorem C7_sequence_numbers_counterexample :
    (NlMsghdr.decode (subscribe 4294967294 1234 1).2).Seq = 4294967295
    ∧ (NlMsghdr.decode (subscribe (subscribe 4294967294 1234 1).1 1234 1).2).Seq = 0
    ∧ ¬ ((NlMsghdr.decode (subscribe 4294967294 1234 1).2).Seq
          < (NlMsghdr.decode (subscribe (subscribe 4294967294 1234 1).1 1234 1).2).Seq) := by
  decide

/-- C7 as amended: from the initial counter 0 the first request carries the
sequence number 1, and for every 32-bit counter value other than 2^32 - 2 two
consecutive calls of `subscribe` carry strictly increasing sequence numbers. -/
theorem C7_sequence_numbers_amended (s pid1 op1 pid2 op2 : Nat) (hs : fits32 s)
    (hne : s ≠ 4294967294) :
    (NlMsghdr.decode (subscribe 0 pid1 op1).2).Seq = 1
    ∧ (NlMsghdr.decode (subscribe s pid1 op1).2).Seq
        < (NlMsghdr.decode (subscribe (subscribe s pid1 op1).1 pid2 op2).2).Seq := by
  simp only [NlMsghdr.decode, subscribe_header_seq, subscribe_counter]
  simp only [fits32] at hs
  constructor
  · decide
  · omega

/-- Witness of C7 as amended: at counter 5 the two requests carry 6 and 7. -/
theorem C7_sequence_numbers_witness :
    (NlMsghdr.decode (subscribe 0 1234 1).2).Seq = 1
    ∧ (NlMsghdr.decode (subscribe 5 1234 1).2).Seq
        < (NlMsghdr.decode (subscribe (subscribe 5 1234 1).1 1234 2).2).Seq :=
  C7_sequence_numbers_amended 5 1234 1 1234 2 (by decide) (by decide)

/-- C8 as stated fails: at counter 0 the sequence field of the envelope (bytes
24..27 of the request) is 0, not the incremented counter 1. -/
theorem C8_envelope_sequence_counterexample :
    (cnMsg.decode ((subscribe 0 1234 1).2.drop 16)).Seq = 0
    ∧ byteOrder.Uint32 ((subscribe 0 1234 1).2.drop 24) ≠ 0 + 1 := by
  decide

/-- C8 as amended: for every call of `subscribe` the sequence field of the
transport header (bytes 8..11 of the request) is the incremented counter, that
is old counter + 1 modulo 2^32, which is also the new counter value; the
sequence field of the connector envelope (bytes 24..27) is 0. -/
theorem C8_header_sequence_amended (s pid op : Nat) :
    (subscribe s pid op).1 = (s + 1) % 4294967296
    ∧ (NlMsghdr.decode (subscribe s pid op).2).Seq = (s + 1) % 4294967296
    ∧ byteOrder.Uint32 ((subscribe s pid op).2.drop 8) = (s + 1) % 4294967296
    ∧ (cnMsg.decode ((subscribe s pid op).2.drop 16)).Seq = 0
    ∧ byteOrder.Uint32 ((subscribe s pid op).2.drop 24) = 0 := by
  refine ⟨rfl, subscribe_header_seq s pid op, subscribe_header_seq s pid op, ?_,
    subscribe_envelope_seq s pid op⟩
  simp only [cnMsg.decode, List.drop_drop]
  exact subscribe_envelope_seq s pid op

/-- C9: a datagram shorter than the 16-byte transport header (the empty one
included) yields no record: nothing is handed to the decoder, nothing is
printed, nothing fails, and the loop goes on with the next datagram. -/
theorem C9_short_datagram_ignored (d : List Byte) (ds : List (List Byte))
    (h : d.length < NLMSG_HDRLEN) :
    receiveOne d = ⟨[], [], false⟩ ∧ receive (d :: ds) = receive ds := by
  have h1 : receiveOne d = ⟨[], [], false⟩ := by simp [receiveOne, h]
  refine ⟨h1, ?_⟩
  simp [receive, h1]

/-- Witness of C9: a 15-byte datagram and the empty datagram in front of the
datagram with one fork record leave just the fork record. -/
theorem C9_short_datagram_witness :
    receiveOne [1, 2, 3, 4, 5, 6, 7, 8, 9, 10, 11, 12, 13, 14, 15] = ⟨[], [], false⟩
    ∧ receive [[1, 2, 3, 4, 5, 6, 7, 8, 9, 10, 11, 12, 13, 14, 15], [],
          (NlMsghdr.mk 68 NLMSG_DONE 0 0 0).encode ++ forkPayload]
        = receive [(NlMsghdr.mk 68 NLMSG_DONE 0 0 0).encode ++ forkPayload] := by
  refine ⟨(C9_short_datagram_ignored _ [] (by decide)).1, ?_⟩
  rw [(C9_short_datagram_ignored _ _ (by decide)).2, (C9_short_datagram_ignored [] _ (by decide)).2]

set_option maxRecDepth 100000 in
/-- C10 (the code at the failing input): the datagram `twoRecordDatagram` parses
into two records of type `NLMSG_DONE`, yet only the payload of the first is
handed to the decoder: the decoder panics on its count of 8 and the fork record
behind it is never examined. -/
theorem C10_record_after_panic_not_handed :
    (ParseNetlinkMessage twoRecordDatagram).map
        (fun ms => ms.map (fun m => (m.Header.Type_, m.Data)))
      = some [(NLMSG_DONE, nsOverflowPayload), (NLMSG_DONE, forkPayload)]
    ∧ (receiveOne twoRecordDatagram).handed = [nsOverflowPayload]
    ∧ (receiveOne twoRecordDatagram).panicked = true := by
  decide

set_option maxRecDepth 100000 in
/-- C11 as stated fails: two valid records, the first of 68 bytes (a multiple of
4, so padded) and the second of 69 bytes with its length field 69; the library
rejects the buffer because the aligned length 72 of the last record exceeds the
bytes left, the error is dropped, and no payload at all is handed over. -/
theorem C11_two_records_counterexample :
    (16 + forkPayload.length = 68 ∧ nlmAlignOf 68 = 68 ∧ 16 + (forkPayload ++ [0]).length = 69)
    ∧ ParseNetlinkMessage ((NlMsghdr.mk 68 NLMSG_DONE 0 0 0).encode ++ forkPayload
        ++ (NlMsghdr.mk 69 NLMSG_DONE 0 0 0).encode ++ (forkPayload ++ [0])) = none
    ∧ (receiveOne ((NlMsghdr.mk 68 NLMSG_DONE 0 0 0).encode ++ forkPayload
        ++ (NlMsghdr.mk 69 NLMSG_DONE 0 0 0).encode ++ (forkPayload ++ [0]))).handed = []
    ∧ (receiveOne ((NlMsghdr.mk 68 NLMSG_DONE 0 0 0).encode ++ forkPayload
        ++ (NlMsghdr.mk 69 NLMSG_DONE 0 0 0).encode ++ (forkPayload ++ [0]))).handed
      ≠ [forkPayload, forkPayload ++ [0]] := by
  decide

/-- C11 as amended: for every buffer that is the concatenation of two records,
each a well-formed 16-byte header of type `NLMSG_DONE` whose length field is the
record's size, followed by its payload and by the padding up to the next 4-byte
boundary, and whose first payload does not make the decoder panic, the library
parses exactly the two records and the receive step hands exactly two payloads
to the decoder, the first record's and then the second's, each equal to the
bytes that were framed. -/
theorem C11_two_records_amended (h1 h2 : NlMsghdr) (p1 p2 pad1 pad2 : List Byte)
    (hw1 : h1.wf) (hw2 : h2.wf) (ht1 : h1.Type_ = NLMSG_DONE) (ht2 : h2.Type_ = NLMSG_DONE)
    (hl1 : h1.Len = NLMSG_HDRLEN + p1.length) (hl2 : h2.Len = NLMSG_HDRLEN + p2.length)
    (hp1 : pad1.length = nlmAlignOf h1.Len - h1.Len)
    (hp2 : pad2.length = nlmAlignOf h2.Len - h2.Len)
    (hnp : (handleProcEvent p1).panicked = false) :
    ParseNetlinkMessage (h1.encode ++ p1 ++ pad1 ++ (h2.encode ++ p2 ++ pad2))
      = some [⟨h1, p1⟩, ⟨h2, p2⟩]
    ∧ receiveOne (h1.encode ++ p1 ++ pad1 ++ (h2.encode ++ p2 ++ pad2))
      = ⟨[p1, p2], (handleProcEvent p1).out ++ (handleProcEvent p2).out,
          (handleProcEvent p2).panicked⟩ := by
  have hparse : ParseNetlinkMessage (h1.encode ++ p1 ++ pad1 ++ (h2.encode ++ p2 ++ pad2))
      = some [⟨h1, p1⟩, ⟨h2, p2⟩] := by
    have e2 : h2.encode ++ p2 ++ pad2 = h2.encode ++ (p2 ++ (pad2 ++ [])) := by
      simp only [List.append_assoc, List.append_nil]
    rw [List.append_assoc, List.append_assoc,
      ParseNetlinkMessage_record h1 p1 pad1 _ hw1 hl1 hp1, e2,
      ParseNetlinkMessage_record h2 p2 pad2 [] hw2 hl2 hp2,
      ParseNetlinkMessage_short [] (by decide)]
    rfl
  refine ⟨hparse, ?_⟩
  have hlong : ¬ (h1.encode ++ p1 ++ pad1 ++ (h2.encode ++ p2 ++ pad2)).length < NLMSG_HDRLEN := by
    simp only [List.length_append, NlMsghdr_length_encode, NLMSG_HDRLEN]
    omega
  unfold receiveOne
  rw [if_neg hlong, hparse]
  by_cases hq : (handleProcEvent p2).panicked = true
  · simp [rangeMsgs, ht1, ht2, hnp, hq]
  · simp only [Bool.not_eq_true] at hq
    simp [rangeMsgs, ht1, ht2, hnp, hq]

set_option maxRecDepth 100000 in
/-- Witness of C11 as amended: the two records of the counterexample, the second
now followed by its three padding bytes, are both handed over, in order. -/
theorem C11_two_records_witness :
    (receiveOne ((NlMsghdr.mk 68 NLMSG_DONE 0 0 0).encode ++ forkPayload ++ []
        ++ ((NlMsghdr.mk 69 NLMSG_DONE 0 0 0).encode ++ (forkPayload ++ [0]) ++ [0, 0, 0]))).handed
      = [forkPayload, forkPayload ++ [0]] := by
  rw [(C11_two_records_amended ⟨68, NLMSG_DONE, 0, 0, 0⟩ ⟨69, NLMSG_DONE, 0, 0, 0⟩ forkPayload
    (forkPayload ++ [0]) [] [0, 0, 0] (by decide) (by decide) (by decide) (by decide) (by decide)
    (by decide) (by decide) (by decide) (by decide)).2]

/-- C12: the reason-code mapping of the multi-item namespace decoder.  For every
well-formed namespace payload, whatever its 32-bit reason value `r`, the line
`ns: pid=%v reason=%v count=%v` is printed first and its reason operand is
"clone" if `r = 1`, "setns" if `r = 2`, "unshare" if `r = 3` and "unknown" for
every other value, 0 included; the reason has no part in whether the decoder
panics, which depends on the count alone. -/
theorem C12_reason_code_mapping (m : cnMsg) (cpu ts : Nat) (ev : nsProcEvent) (rest : List Byte)
    (hm : m.wf) (hcpu : fits32 cpu) (hts : fits64 ts) (hev : ev.wf) :
    (handleProcEvent (recordPayload m ⟨PROC_EVENT_NS, cpu, ts⟩ (ev.encode ++ rest))).out.head?
      = some ⟨"ns: pid=%v reason=%v count=%v\n",
          [Arg.num ev.ProcessTgid,
           Arg.str (if ev.Reason = 1 then "clone" else if ev.Reason = 2 then "setns"
             else if ev.Reason = 3 then "unshare" else "unknown"),
           Arg.num ev.Count]⟩
    ∧ reasonStr ev.Reason
        = (if ev.Reason = 1 then "clone" else if ev.Reason = 2 then "setns"
            else if ev.Reason = 3 then "unshare" else "unknown")
    ∧ ((handleProcEvent (recordPayload m ⟨PROC_EVENT_NS, cpu, ts⟩ (ev.encode ++ rest))).panicked
        = true ↔ 7 < ev.Count) := by
  have hr : reasonStr ev.Reason
      = (if ev.Reason = 1 then "clone" else if ev.Reason = 2 then "setns"
          else if ev.Reason = 3 then "unshare" else "unknown") := rfl
  refine ⟨?_, hr, ?_⟩
  · by_cases hk : ev.Count ≤ 7
    · rw [handleProcEvent_ns_payload m cpu ts ev rest hm hcpu hts hev hk, ← hr]; rfl
    · rw [handleProcEvent_ns_payload_overflow m cpu ts ev rest hm hcpu hts hev (by omega), ← hr]
      rfl
  · by_cases hk : ev.Count ≤ 7
    · rw [handleProcEvent_ns_payload m cpu ts ev rest hm hcpu hts hev hk]
      simp only [Bool.false_eq_true, false_iff, not_lt]; exact hk
    · rw [handleProcEvent_ns_payload_overflow m cpu ts ev rest hm hcpu hts hev (by omega)]
      simp only [true_iff]; omega

/-- Witness of C12: the reasons 0, 1, 2, 3 and 4 are printed as unknown, clone,
setns, unshare and unknown. -/
theorem C12_reason_code_witness :
    [0, 1, 2, 3, 4].map (fun r =>
        ((handleProcEvent (recordPayload ⟨⟨1, 1⟩, 0, 0, 208, 0⟩ ⟨PROC_EVENT_NS, 0, 99⟩
          ((nsProcEvent.mk 41 42 r 0 (List.replicate 7 nsProcItem.zero)).encode ++ []))).out.head?).map
            Printf.render)
      = [some "ns: pid=42 reason=unknown count=0\n", some "ns: pid=42 reason=clone count=0\n",
         some "ns: pid=42 reason=setns count=0\n", some "ns: pid=42 reason=unshare count=0\n",
         some "ns: pid=42 reason=unknown count=0\n"] := by
  simp only [List.map_cons, List.map_nil]
  rw [(C12_reason_code_mapping ⟨⟨1, 1⟩, 0, 0, 208, 0⟩ 0 99 ⟨41, 42, 0, 0, _⟩ [] (by decide)
      (by decide) (by decide) (by decide)).1,
    (C12_reason_code_mapping ⟨⟨1, 1⟩, 0, 0, 208, 0⟩ 0 99 ⟨41, 42, 1, 0, _⟩ [] (by decide)
      (by decide) (by decide) (by decide)).1,
    (C12_reason_code_mapping ⟨⟨1, 1⟩, 0, 0, 208, 0⟩ 0 99 ⟨41, 42, 2, 0, _⟩ [] (by decide)
      (by decide) (by decide) (by decide)).1,
    (C12_reason_code_mapping ⟨⟨1, 1⟩, 0, 0, 208, 0⟩ 0 99 ⟨41, 42, 3, 0, _⟩ [] (by decide)
      (by decide) (by decide) (by decide)).1,
    (C12_reason_code_mapping ⟨⟨1, 1⟩, 0, 0, 208, 0⟩ 0 99 ⟨41, 42, 4, 0, _⟩ [] (by decide)
      (by decide) (by decide) (by decide)).1]
  decide

set_option maxRecDepth 100000 in
/-- C13 as stated fails for the multi-item decoder: on a namespace payload with
count 1 whose slot 0 has type `CLONE_NEWPID`, `handleProcEvent` prints the type
operand "pid " (with a blank behind it), not the name "pid". -/
theorem C13_namespace_type_counterexample :
    (handleProcEvent (recordPayload ⟨⟨1, 1⟩, 0, 0, 208, 0⟩ ⟨PROC_EVENT_NS, 0, 99⟩
        ((nsProcEvent.mk 41 42 2 1
          [⟨CLONE_NEWPID, 0, 111, 222⟩, ⟨0, 0, 0, 0⟩, ⟨0, 0, 0, 0⟩, ⟨0, 0, 0, 0⟩, ⟨0, 0, 0, 0⟩,
           ⟨0, 0, 0, 0⟩, ⟨0, 0, 0, 0⟩]).encode))).out
      = [⟨"ns: pid=%v reason=%v count=%v\n", [Arg.num 42, Arg.str "setns", Arg.num 1]⟩,
         ⟨"    type=%s %v -> %v\n", [Arg.str "pid ", Arg.num 111, Arg.num 222]⟩]
    ∧ (handleProcEvent (recordPayload ⟨⟨1, 1⟩, 0, 0, 208, 0⟩ ⟨PROC_EVENT_NS, 0, 99⟩
        ((nsProcEvent.mk 41 42 2 1
          [⟨CLONE_NEWPID, 0, 111, 222⟩, ⟨0, 0, 0, 0⟩, ⟨0, 0, 0, 0⟩, ⟨0, 0, 0, 0⟩, ⟨0, 0, 0, 0⟩,
           ⟨0, 0, 0, 0⟩, ⟨0, 0, 0, 0⟩]).encode))).out
      ≠ [⟨"ns: pid=%v reason=%v count=%v\n", [Arg.num 42, Arg.str "setns", Arg.num 1]⟩,
         ⟨"    type=%s %v -> %v\n", [Arg.str "pid", Arg.num 111, Arg.num 222]⟩]
    ∧ typeStr CLONE_NEWPID ≠ nsKindName CLONE_NEWPID := by
  decide

/-- C13 as amended: the namespace type-code mapping of the two decoders.
The legacy decoder `handleEvent`, on every well-formed payload of tag
`PROC_EVENT_NM`, makes one call whose type operand is the specification's name of
the encoded type code (pid, mnt, net, uts, ipc, user for the six `CLONE_NEW*`
constants, "unknown" for every other code) and does not panic.  The multi-item
decoder `handleProcEvent`, on every well-formed payload of tag `PROC_EVENT_NS`,
prints for each of the first `Count` slots a line whose type operand is that name
filled with a blank on the right to four columns ("pid ", "mnt ", "net ", "uts ",
"ipc ", "user", and "unknown" for every other code); whether it panics depends on
the count alone, never on a type code.  In each decoder the six known codes have
six distinct names. -/
theorem C13_namespace_type_mapping_amended (t : Nat) (m : cnMsg) (cpu ts : Nat)
    (nm : nmProcEvent) (ev : nsProcEvent) (rest : List Byte)
    (hm : m.wf) (hcpu : fits32 cpu) (hts : fits64 ts) (hnm : nm.wf) (hev : ev.wf) :
    handleEvent (recordPayload m ⟨PROC_EVENT_NM, cpu, ts⟩ (nm.encode ++ rest))
      = ⟨[⟨"nm: pid=%v type=%v reason=%v old_inum=%v inum=%v\n",
            [Arg.num nm.ProcessTgid, Arg.str (nsKindName nm.NmType), Arg.num nm.NmReason,
             Arg.num nm.OldInum, Arg.num nm.Inum]⟩], false⟩
    ∧ handleProcEvent (recordPayload m ⟨PROC_EVENT_NS, cpu, ts⟩ (ev.encode ++ rest))
      = ⟨⟨"ns: pid=%v reason=%v count=%v\n",
            [Arg.num ev.ProcessTgid, Arg.str (reasonStr ev.Reason), Arg.num ev.Count]⟩
          :: (ev.Items.take ev.Count).map (fun item =>
                ⟨"    type=%s %v -> %v\n",
                  [Arg.str (padTo4 (nsKindName item.ItemType)), Arg.num item.OldInum,
                   Arg.num item.Inum]⟩),
         decide (7 < ev.Count)⟩
    ∧ (nmTypeStr t = nsKindName t ∧ typeStr t = padTo4 (nsKindName t))
    ∧ [nsKindName CLONE_NEWPID, nsKindName CLONE_NEWNS, nsKindName CLONE_NEWNET,
        nsKindName CLONE_NEWUTS, nsKindName CLONE_NEWIPC, nsKindName CLONE_NEWUSER]
        = ["pid", "mnt", "net", "uts", "ipc", "user"]
    ∧ [padTo4 (nsKindName CLONE_NEWPID), padTo4 (nsKindName CLONE_NEWNS),
        padTo4 (nsKindName CLONE_NEWNET), padTo4 (nsKindName CLONE_NEWUTS),
        padTo4 (nsKindName CLONE_NEWIPC), padTo4 (nsKindName CLONE_NEWUSER)]
        = ["pid ", "mnt ", "net ", "uts ", "ipc ", "user"]
    ∧ (t ∉ [CLONE_NEWPID, CLONE_NEWNS, CLONE_NEWNET, CLONE_NEWUTS, CLONE_NEWIPC, CLONE_NEWUSER]
        → nsKindName t = "unknown" ∧ padTo4 (nsKindName t) = "unknown")
    ∧ ([CLONE_NEWPID, CLONE_NEWNS, CLONE_NEWNET, CLONE_NEWUTS, CLONE_NEWIPC,
        CLONE_NEWUSER].map nsKindName).Nodup
    ∧ ([CLONE_NEWPID, CLONE_NEWNS, CLONE_NEWNET, CLONE_NEWUTS, CLONE_NEWIPC,
        CLONE_NEWUSER].map (fun c => padTo4 (nsKindName c))).Nodup := by
  have hnmStr : ∀ (u : Nat), nmTypeStr u = nsKindName u := by
    intro u
    simp only [nmTypeStr, nsKindName, CLONE_NEWPID, CLONE_NEWNS, CLONE_NEWNET, CLONE_NEWUTS,
      CLONE_NEWIPC, CLONE_NEWUSER]
  have hnsStr : ∀ (u : Nat), typeStr u = padTo4 (nsKindName u) := by
    intro u
    simp only [typeStr, nsKindName, CLONE_NEWPID, CLONE_NEWNS, CLONE_NEWNET, CLONE_NEWUTS,
      CLONE_NEWIPC, CLONE_NEWUSER]
    split_ifs <;> decide
  have hline : nsItemLine = (fun item => (⟨"    type=%s %v -> %v\n",
      [Arg.str (padTo4 (nsKindName item.ItemType)), Arg.num item.OldInum,
       Arg.num item.Inum]⟩ : Printf)) := by
    funext item
    simp only [nsItemLine, hnsStr]
  have hM : procEventHeader.wf ⟨PROC_EVENT_NM, cpu, ts⟩ :=
    ⟨(by decide : fits32 PROC_EVENT_NM), hcpu, hts⟩
  refine ⟨?_, ?_, ⟨hnmStr t, hnsStr t⟩, by decide, by decide, ?_, by decide, by decide⟩
  · rw [handleEvent_nm _ (by rw [eventHeader_recordPayload m _ _ hm hM]),
      eventBuffer_recordPayload m _ _ hm hM, nmProcEvent_read_encode nm hnm, hnmStr]
  · rw [← hline]
    by_cases hk : ev.Count ≤ 7
    · rw [handleProcEvent_ns_payload m cpu ts ev rest hm hcpu hts hev hk]
      have hd : decide (7 < ev.Count) = false := decide_eq_false (by omega)
      rw [hd]
    · rw [handleProcEvent_ns_payload_overflow m cpu ts ev rest hm hcpu hts hev (by omega)]
      have hd : decide (7 < ev.Count) = true := decide_eq_true (by omega)
      rw [hd, List.take_of_length_le (by rw [hev.2.2.2.2.1]; omega)]
  · intro h
    simp only [List.mem_cons, List.mem_singleton, List.not_mem_nil, or_false, not_or] at h
    obtain ⟨h0, h1, h2, h3, h4, h5⟩ := h
    have hu : nsKindName t = "unknown" := by
      rw [← hnmStr]
      simp only [nmTypeStr, if_neg h0, if_neg h1, if_neg h2, if_neg h3, if_neg h4, if_neg h5]
    rw [hu]
    exact ⟨rfl, by decide⟩

/-- Witness of C13 as amended: a legacy payload of type `CLONE_NEWUTS` prints
type=uts, a multi-item payload with the slots net, user and the unallocated code
5 prints the operands "net ", "user" and "unknown", and the code 5 is unknown. -/
theorem C13_namespace_type_witness :
    (handleEvent (recordPayload ⟨⟨1, 1⟩, 0, 0, 68, 0⟩ ⟨PROC_EVENT_NM, 0, 99⟩
        ((nmProcEvent.mk 5 6 CLONE_NEWUTS 2 7 8).encode ++ []))).out.map Printf.render
      = ["nm: pid=6 type=uts reason=2 old_inum=7 inum=8\n"]
    ∧ handleProcEvent (recordPayload ⟨⟨1, 1⟩, 0, 0, 68, 0⟩ ⟨PROC_EVENT_NS, 0, 99⟩
        ((nsProcEvent.mk 41 42 3 3
          [⟨CLONE_NEWNET, 0, 11, 12⟩, ⟨CLONE_NEWUSER, 0, 21, 22⟩, ⟨5, 0, 31, 32⟩, ⟨0, 0, 0, 0⟩,
           ⟨0, 0, 0, 0⟩, ⟨0, 0, 0, 0⟩, ⟨0, 0, 0, 0⟩]).encode ++ []))
      = ⟨[⟨"ns: pid=%v reason=%v count=%v\n", [Arg.num 42, Arg.str "unshare", Arg.num 3]⟩,
          ⟨"    type=%s %v -> %v\n", [Arg.str "net ", Arg.num 11, Arg.num 12]⟩,
          ⟨"    type=%s %v -> %v\n", [Arg.str "user", Arg.num 21, Arg.num 22]⟩,
          ⟨"    type=%s %v -> %v\n", [Arg.str "unknown", Arg.num 31, Arg.num 32]⟩], false⟩
    ∧ (nsKindName 5 = "unknown" ∧ padTo4 (nsKindName 5) = "unknown") := by
  have h := C13_namespace_type_mapping_amended 5 ⟨⟨1, 1⟩, 0, 0, 68, 0⟩ 0 99
    ⟨5, 6, CLONE_NEWUTS, 2, 7, 8⟩
    ⟨41, 42, 3, 3, [⟨CLONE_NEWNET, 0, 11, 12⟩, ⟨CLONE_NEWUSER, 0, 21, 22⟩, ⟨5, 0, 31, 32⟩,
      ⟨0, 0, 0, 0⟩, ⟨0, 0, 0, 0⟩, ⟨0, 0, 0, 0⟩, ⟨0, 0, 0, 0⟩]⟩ []
    (by decide) (by decide) (by decide) (by decide) (by decide)
  refine ⟨?_, ?_, h.2.2.2.2.2.1 (by decide)⟩
  · rw [h.1]; decide
  · rw [h.2.1]; decide

/-- C14: channel identifier and origin of a subscription request.  For every
counter value, every action code and every caller process id `p` (a 32-bit
value), the request has transport-header length 40, type `NLMSG_DONE`, flags 0
and origin process id `p`, and its connector envelope has index `CN_IDX_PROC` = 1,
value `CN_VAL_PROC` = 1, sequence and acknowledgement 0, payload length 4 and
flags 0. -/
theorem C14_subscription_channel_and_origin (s p op : Nat) (hp : fits32 p) :
    NlMsghdr.decode (subscribe s p op).2 = ⟨40, NLMSG_DONE, 0, (s + 1) % 4294967296, p⟩
    ∧ cnMsg.decode ((subscribe s p op).2.drop 16) = ⟨⟨CN_IDX_PROC, CN_VAL_PROC⟩, 0, 0, 4, 0⟩
    ∧ (NLMSG_DONE = 3 ∧ CN_IDX_PROC = 1 ∧ CN_VAL_PROC = 1) := by
  have hmod : p % 4294967296 = p := Nat.mod_eq_of_lt hp
  have hbuf : (subscribe s p op).2
      = (NlMsghdr.mk 40 NLMSG_DONE 0 ((s + 1) % 4294967296) p).encode
        ++ ((cnMsg.mk ⟨CN_IDX_PROC, CN_VAL_PROC⟩ 0 0 4 0).encode ++ byteOrder.PutUint32 op) := by
    simp only [subscribe, netlinkProcMessage.encode, List.append_assoc, hmod]
    rfl
  have hw : NlMsghdr.wf ⟨40, NLMSG_DONE, 0, (s + 1) % 4294967296, p⟩ := by
    exact ⟨(by decide : fits32 40), (by decide : fits16 NLMSG_DONE), (by decide : fits16 0),
      Nat.mod_lt _ (by decide), hp⟩
  refine ⟨?_, ?_, by decide⟩
  · rw [hbuf, NlMsghdr_decode_encode _ hw]
  · rw [hbuf, List.drop_left' (NlMsghdr_length_encode _),
      cnMsg_decode_encode_append _ (by decide)]

/-- Witness of C14: the listen request of process 1234 at counter 0. -/
theorem C14_subscription_channel_witness :
    NlMsghdr.decode (subscribe 0 1234 PROC_CN_MCAST_LISTEN).2 = ⟨40, 3, 0, 1, 1234⟩
    ∧ cnMsg.decode ((subscribe 0 1234 PROC_CN_MCAST_LISTEN).2.drop 16) = ⟨⟨1, 1⟩, 0, 0, 4, 0⟩ := by
  have h := C14_subscription_channel_and_origin 0 1234 PROC_CN_MCAST_LISTEN (by decide)
  exact ⟨h.1, h.2.1⟩

/-- C15: the legacy single-item namespace form.  For every record payload made of
a well-formed envelope, an event header with tag `PROC_EVENT_NM` and the 32-byte
little-endian encoding of an `nmProcEvent` (followed by any further bytes),
`handleEvent` decodes the struct that was encoded and makes exactly one call,
whose operands are the encoded tgid, the name of the encoded type code, the
encoded reason code and the encoded old and new inode numbers, each inode number
any value below 2^64 and reported unchanged. -/
theorem C15_legacy_single_item_form (m : cnMsg) (cpu ts : Nat) (ev : nmProcEvent)
    (rest : List Byte) (hm : m.wf) (hcpu : fits32 cpu) (hts : fits64 ts) (hev : ev.wf) :
    (nmProcEvent.read
        (eventBuffer (recordPayload m ⟨PROC_EVENT_NM, cpu, ts⟩ (ev.encode ++ rest)))).1 = ev
    ∧ handleEvent (recordPayload m ⟨PROC_EVENT_NM, cpu, ts⟩ (ev.encode ++ rest))
        = ⟨[⟨"nm: pid=%v type=%v reason=%v old_inum=%v inum=%v\n",
              [Arg.num ev.ProcessTgid, Arg.str (nmTypeStr ev.NmType), Arg.num ev.NmReason,
               Arg.num ev.OldInum, Arg.num ev.Inum]⟩], false⟩ := by
  have hN : procEventHeader.wf ⟨PROC_EVENT_NM, cpu, ts⟩ :=
    ⟨(by decide : fits32 PROC_EVENT_NM), hcpu, hts⟩
  constructor
  · rw [eventBuffer_recordPayload m _ _ hm hN, nmProcEvent_read_encode ev hev]
  · rw [handleEvent_nm _ (by rw [eventHeader_recordPayload m _ _ hm hN]),
      eventBuffer_recordPayload m _ _ hm hN, nmProcEvent_read_encode ev hev]

/-- Witness of C15: a setns into a net namespace with the old inode number
2^64 - 1 and the new inode number 4026531840, both above 2^31. -/
theorem C15_legacy_single_item_witness :
    (handleEvent (recordPayload ⟨⟨1, 1⟩, 0, 0, 68, 0⟩ ⟨PROC_EVENT_NM, 0, 99⟩
        ((nmProcEvent.mk 5 6 CLONE_NEWNET 2 18446744073709551615 4026531840).encode ++ []))).out.map
          Printf.render
      = ["nm: pid=6 type=net reason=2 old_inum=18446744073709551615 inum=4026531840\n"] := by
  rw [(C15_legacy_single_item_form ⟨⟨1, 1⟩, 0, 0, 68, 0⟩ 0 99 _ [] (by decide) (by decide)
    (by decide) (by decide)).2]
  decide

/-- C16: the recognized but ignored kinds.  For every byte sequence whose
decoded event tag is `PROC_EVENT_UID`, `PROC_EVENT_GID`, `PROC_EVENT_SID`,
`PROC_EVENT_PTRACE`, `PROC_EVENT_COMM` or `PROC_EVENT_COREDUMP`, whatever follows
the event header, `handleProcEvent` makes no call at all (so none that reports
the tag as unrecognized) and does not panic. -/
theorem C16_recognized_but_ignored (data : List Byte)
    (h : (eventHeader data).What ∈ [PROC_EVENT_UID, PROC_EVENT_GID, PROC_EVENT_SID,
      PROC_EVENT_PTRACE, PROC_EVENT_COMM, PROC_EVENT_COREDUMP]) :
    handleProcEvent data = ⟨[], false⟩ := by
  simp only [List.mem_cons, List.mem_singleton, List.not_mem_nil, or_false] at h
  exact handleProcEvent_ignored data h

/-- Witness of C16: the six tags, each followed by three stray bytes, print
nothing. -/
theorem C16_recognized_but_ignored_witness :
    [0x4, 0x40, 0x80, 0x100, 0x200, 0x40000000].map (fun tag =>
        handleProcEvent (recordPayload ⟨⟨1, 1⟩, 0, 0, 0, 0⟩ ⟨tag, 0, 0⟩ [1, 2, 3]))
      = List.replicate 6 ⟨[], false⟩ := by
  simp only [List.map_cons, List.map_nil]
  rw [C16_recognized_but_ignored _ (by decide : (eventHeader (recordPayload ⟨⟨1, 1⟩, 0, 0, 0, 0⟩
        ⟨0x4, 0, 0⟩ [1, 2, 3])).What ∈ _),
    C16_recognized_but_ignored _ (by decide : (eventHeader (recordPayload ⟨⟨1, 1⟩, 0, 0, 0, 0⟩
        ⟨0x40, 0, 0⟩ [1, 2, 3])).What ∈ _),
    C16_recognized_but_ignored _ (by decide : (eventHeader (recordPayload ⟨⟨1, 1⟩, 0, 0, 0, 0⟩
        ⟨0x80, 0, 0⟩ [1, 2, 3])).What ∈ _),
    C16_recognized_but_ignored _ (by decide : (eventHeader (recordPayload ⟨⟨1, 1⟩, 0, 0, 0, 0⟩
        ⟨0x100, 0, 0⟩ [1, 2, 3])).What ∈ _),
    C16_recognized_but_ignored _ (by decide : (eventHeader (recordPayload ⟨⟨1, 1⟩, 0, 0, 0, 0⟩
        ⟨0x200, 0, 0⟩ [1, 2, 3])).What ∈ _),
    C16_recognized_but_ignored _ (by decide : (eventHeader (recordPayload ⟨⟨1, 1⟩, 0, 0, 0, 0⟩
        ⟨0x40000000, 0, 0⟩ [1, 2, 3])).What ∈ _)]
  rfl

/-- C17: the two protocol variants agree outside namespace events.  For every
byte sequence, well-formed or cut short, whose decoded event tag is
`PROC_EVENT_FORK`, `PROC_EVENT_EXEC` or `PROC_EVENT_EXIT`, the legacy decoder
`handleEvent` and the decoder `handleProcEvent` give the same result: the same
calls with the same operands, and neither panics. -/
theorem C17_variants_agree_on_fork_exec_exit (data : List Byte)
    (h : (eventHeader data).What ∈ [PROC_EVENT_FORK, PROC_EVENT_EXEC, PROC_EVENT_EXIT]) :
    handleEvent data = handleProcEvent data ∧ (handleProcEvent data).panicked = false := by
  simp only [List.mem_cons, List.mem_singleton, List.not_mem_nil, or_false] at h
  rcases h with h | h | h
  · rw [handleEvent_fork data h, handleProcEvent_fork data h]; exact ⟨rfl, rfl⟩
  · rw [handleEvent_exec data h, handleProcEvent_exec data h]; exact ⟨rfl, rfl⟩
  · rw [handleEvent_exit data h, handleProcEvent_exit data h]; exact ⟨rfl, rfl⟩

/-- Witness of C17: both decoders print `fork: ppid=7 pid=8` for the fork
payload, and both print `exit: pid=0` for an exit payload cut after 5 bytes of
the exit struct. -/
theorem C17_variants_agree_witness :
    handleEvent forkPayload = handleProcEvent forkPayload
    ∧ (handleEvent forkPayload).out.map Printf.render = ["fork: ppid=7 pid=8\n"]
    ∧ handleEvent (recordPayload ⟨⟨1, 1⟩, 0, 0, 0, 0⟩ ⟨PROC_EVENT_EXIT, 0, 0⟩ [100, 0, 0, 0, 100])
      = handleProcEvent
          (recordPayload ⟨⟨1, 1⟩, 0, 0, 0, 0⟩ ⟨PROC_EVENT_EXIT, 0, 0⟩ [100, 0, 0, 0, 100]) := by
  refine ⟨(C17_variants_agree_on_fork_exec_exit forkPayload (by decide)).1, by decide,
    (C17_variants_agree_on_fork_exec_exit _ (by decide)).1⟩

/-- C18: the variant structs are decoded all or nothing.  For every byte
sequence whose decoded tag is `PROC_EVENT_NS` (so envelope and event header are
complete) and that is shorter than 36 + 184 bytes, `handleProcEvent` reads the
zero struct and reports process id 0, reason "unknown", count 0 and no item,
whatever bytes were present; likewise a fork struct cut short (fewer than 36 + 16
bytes) is reported with both ids 0, an exec struct cut short (fewer than 36 + 8)
and an exit struct cut short (fewer than 36 + 16) with process id 0. -/
theorem C18_structs_all_or_nothing (data : List Byte) :
    ((eventHeader data).What = PROC_EVENT_NS → data.length < 220 →
        (nsProcEvent.read (eventBuffer data)).1 = nsProcEvent.zero
        ∧ handleProcEvent data
          = ⟨[⟨"ns: pid=%v reason=%v count=%v\n",
                [Arg.num 0, Arg.str "unknown", Arg.num 0]⟩], false⟩)
    ∧ ((eventHeader data).What = PROC_EVENT_FORK → data.length < 52 →
        (forkProcEvent.read (eventBuffer data)).1 = forkProcEvent.zero
        ∧ handleProcEvent data
          = ⟨[⟨"fork: ppid=%v pid=%v\n", [Arg.num 0, Arg.num 0]⟩], false⟩)
    ∧ ((eventHeader data).What = PROC_EVENT_EXEC → data.length < 44 →
        (execProcEvent.read (eventBuffer data)).1 = execProcEvent.zero
        ∧ handleProcEvent data = ⟨[⟨"exec: pid=%v\n", [Arg.num 0]⟩], false⟩)
    ∧ ((eventHeader data).What = PROC_EVENT_EXIT → data.length < 52 →
        (exitProcEvent.read (eventBuffer data)).1 = exitProcEvent.zero
        ∧ handleProcEvent data = ⟨[⟨"exit: pid=%v\n", [Arg.num 0]⟩], false⟩) := by
  have hb := eventBuffer_length data
  refine ⟨?_, ?_, ?_, ?_⟩
  · intro ht hl
    have hr := nsProcEvent_read_short (eventBuffer data) (by omega)
    refine ⟨by rw [hr], ?_⟩
    rw [handleProcEvent_ns data ht, hr]
    rfl
  · intro ht hl
    have hr := forkProcEvent_read_short (eventBuffer data) (by omega)
    refine ⟨by rw [hr], ?_⟩
    rw [handleProcEvent_fork data ht, hr]
    rfl
  · intro ht hl
    have hr := execProcEvent_read_short (eventBuffer data) (by omega)
    refine ⟨by rw [hr], ?_⟩
    rw [handleProcEvent_exec data ht, hr]
    rfl
  · intro ht hl
    have hr := exitProcEvent_read_short (eventBuffer data) (by omega)
    refine ⟨by rw [hr], ?_⟩
    rw [handleProcEvent_exit data ht, hr]
    rfl

set_option maxRecDepth 100000 in
/-- Witness of C18: a namespace payload that stops 1 byte before the end of the
184-byte struct (tgid 42, reason 1, count 3 were present) is reported as pid 0,
reason unknown, count 0; a fork struct of 15 bytes as ppid 0, pid 0. -/
theorem C18_structs_all_or_nothing_witness :
    (handleProcEvent (recordPayload ⟨⟨1, 1⟩, 0, 0, 0, 0⟩ ⟨PROC_EVENT_NS, 0, 0⟩
        ([41, 0, 0, 0, 42, 0, 0, 0, 1, 0, 0, 0, 3, 0, 0, 0] ++ List.replicate 167 7))).out.map
          Printf.render
      = ["ns: pid=0 reason=unknown count=0\n"]
    ∧ (handleProcEvent (recordPayload ⟨⟨1, 1⟩, 0, 0, 0, 0⟩ ⟨PROC_EVENT_FORK, 0, 0⟩
        [7, 0, 0, 0, 7, 0, 0, 0, 8, 0, 0, 0, 8, 0, 0])).out.map Printf.render
      = ["fork: ppid=0 pid=0\n"] := by
  constructor
  · rw [((C18_structs_all_or_nothing _).1 (by decide) (by decide)).2]; decide
  · rw [((C18_structs_all_or_nothing _).2.1 (by decide) (by decide)).2]; decide

/-- C19: the legacy decoder is silent on every tag it does not handle.  For
every byte sequence whose decoded event tag is none of `PROC_EVENT_FORK`,
`PROC_EVENT_EXEC`, `PROC_EVENT_NM`, `PROC_EVENT_EXIT`, `handleEvent` makes no call
(its `switch` has no default case), and for every byte sequence whatsoever it
makes at most one call and does not panic. -/
theorem C19_legacy_decoder_silent (data : List Byte) :
    ((eventHeader data).What ∉ [PROC_EVENT_FORK, PROC_EVENT_EXEC, PROC_EVENT_NM, PROC_EVENT_EXIT]
        → handleEvent data = ⟨[], false⟩)
    ∧ (handleEvent data).out.length ≤ 1
    ∧ (handleEvent data).panicked = false := by
  refine ⟨handleEvent_other data, ?_⟩
  by_cases h0 : (eventHeader data).What = PROC_EVENT_FORK
  · rw [handleEvent_fork data h0]; exact ⟨le_refl _, rfl⟩
  by_cases h1 : (eventHeader data).What = PROC_EVENT_EXEC
  · rw [handleEvent_exec data h1]; exact ⟨le_refl _, rfl⟩
  by_cases h2 : (eventHeader data).What = PROC_EVENT_NM
  · rw [handleEvent_nm data h2]; exact ⟨le_refl _, rfl⟩
  by_cases h3 : (eventHeader data).What = PROC_EVENT_EXIT
  · rw [handleEvent_exit data h3]; exact ⟨le_refl _, rfl⟩
  · rw [handleEvent_other data (by
      simp only [List.mem_cons, List.mem_singleton, List.not_mem_nil, or_false, not_or]
      exact ⟨h0, h1, h2, h3⟩)]
    exact ⟨Nat.zero_le _, rfl⟩

/-- Witness of C19: the tags 0x4, 0x800 and 0x3 and the empty payload (tag 0)
make the legacy decoder print nothing. -/
theorem C19_legacy_decoder_silent_witness :
    handleEvent (recordPayload ⟨⟨1, 1⟩, 0, 0, 0, 0⟩ ⟨0x4, 0, 0⟩ [1, 2, 3]) = ⟨[], false⟩
    ∧ handleEvent (recordPayload ⟨⟨1, 1⟩, 0, 0, 0, 0⟩ ⟨0x800, 0, 0⟩ [1, 2, 3]) = ⟨[], false⟩
    ∧ handleEvent (recordPayload ⟨⟨1, 1⟩, 0, 0, 0, 0⟩ ⟨0x3, 0, 0⟩ [1, 2, 3]) = ⟨[], false⟩
    ∧ handleEvent [] = ⟨[], false⟩ :=
  ⟨(C19_legacy_decoder_silent _).1 (by decide), (C19_legacy_decoder_silent _).1 (by decide),
    (C19_legacy_decoder_silent _).1 (by decide), (C19_legacy_decoder_silent []).1 (by decide)⟩

end Nswatch
